import Mathlib

/-!
Verification of the county e-voting backend's voting core, results
aggregator and candidate registry, as a shallow embedding of the
JavaScript source files:

* `src/models/Candidate.js` (candidate schema with its partial unique
  index, and the voting controller: `checkEligibility`, `submitVote`,
  `getEligibleCandidates`, `isCandidateEligible`),
* the Vote schema with its `(votingNumber, position)` unique index,
* the SystemSetting and Voter schemas,
* `src/controllers/resultController.js` (`getResultsByPosition`,
  `getLiveResults` turnout summary),
* the admin candidate controller (`addCandidate`, `updateCandidate`,
  `deleteCandidate`).

Each MongoDB document collection becomes a Lean list; each awaited
database call becomes a pure function of the store; handlers become
functions `Store → Input → Store × Outcome` so that absence of mutation
is itself a provable statement.  Document `_id`s are modelled as `Nat`.
Timestamps (`votedAt`, `createdAt`, …) are irrelevant to every claim and
are omitted from the record types.
-/

namespace EVote

/-- `[...new Set(xs)]` / the distinct keys a `$group` stage produces:
the elements of `xs` with every repeated occurrence after the first
removed, in first-occurrence order. -/
def dedupFirst [BEq α] : List α → List α
  | [] => []
  | x :: xs => x :: (dedupFirst xs).filter (fun y => y != x)

/-- A `SystemSetting.value` is `Mixed` in the schema; the code stores
booleans (`voting_portal_open`) and strings/timestamps
(`voting_deadline`). -/
inductive SettingValue where
  | bool (b : Bool)
  | str (s : String)
deriving Repr, DecidableEq

/-- JavaScript truthiness of a setting value, as tested by
`!portalStatus.value`: a boolean is truthy iff it is `true`, a string is
truthy iff it is non-empty. -/
def SettingValue.truthy : SettingValue → Bool
  | .bool b => b
  | .str s => s ≠ ""

/-- A SystemSetting document: unique `key`, `Mixed` value. -/
structure Setting where
  key : String
  value : SettingValue
deriving Repr, DecidableEq

/-- A Voter document (Voter schema, `src/models/Voter.js`): the fields
the voting core reads.  The schema restricts `county` to the single enum
value `"Kirinyaga"`; we keep the field and carry that restriction as a
hypothesis where a theorem needs it. -/
structure Voter where
  votingNumber : String
  fullName : String
  county : String
  constituency : String
  ward : String
  hasVoted : Bool
  isActive : Bool
deriving Repr, DecidableEq

/-- A Candidate document (`src/models/Candidate.js` schema).
`constituency` and `ward` are nullable (`null` for county-wide seats). -/
structure Candidate where
  id : Nat
  fullName : String
  candPosition : String
  politicalParty : String
  county : String
  constituency : Option String
  ward : Option String
  photo : String
  voteCount : Nat
  isActive : Bool
deriving Repr, DecidableEq

/-- A Vote document (Vote schema): one credential's choice for one
position, with the voter's area copied in at cast time, plus the
submitting request's `ipAddress` and `userAgent`. -/
structure VoteRec where
  votingNumber : String
  votePosition : String
  candidateId : Nat
  county : String
  constituency : String
  ward : String
  ipAddress : Option String
  userAgent : Option String
deriving Repr, DecidableEq

/-- The shared document store: one list per collection. -/
structure Store where
  voters : List Voter
  candidates : List Candidate
  votes : List VoteRec
  settings : List Setting
deriving Repr, DecidableEq

/-- `SystemSetting.findOne({ key })`: the settings collection has a
unique index on `key`, so `find?` returns the unique match if any. -/
def findSetting (st : Store) (k : String) : Option Setting :=
  st.settings.find? (fun s => s.key == k)

/-- `Voter.findOne({ votingNumber, isActive: true })`. -/
def findActiveVoter (st : Store) (vn : String) : Option Voter :=
  st.voters.find? (fun v => v.votingNumber == vn && v.isActive)

/-- `Candidate.findById(id)`. -/
def findCandidateById (st : Store) (cid : Nat) : Option Candidate :=
  st.candidates.find? (fun c => c.id == cid)

/-- The portal gate as the submission/eligibility code tests it:
`!portalStatus || !portalStatus.value` rejects, i.e. the portal is open
iff the `voting_portal_open` setting exists and its value is truthy. -/
def portalOpen (st : Store) : Bool :=
  match findSetting st "voting_portal_open" with
  | none => false
  | some s => s.value.truthy

/-- `getVotingDeadline` (`src/models/Candidate.js` lines 321–324):
return the `voting_deadline` setting's value, else `null`. -/
def getVotingDeadline (st : Store) : Option SettingValue :=
  (findSetting st "voting_deadline").map (fun s => s.value)

/-- `isCandidateEligible(candidate, voter, position)`
(`src/models/Candidate.js` lines 303–318), translated branch for
branch; the `default` arm of the `switch` returns `false`. -/
def isCandidateEligible (candidate : Candidate) (voter : Voter)
    (position : String) : Bool :=
  if position == "Governor" then
    candidate.candPosition == "Governor" && candidate.county == voter.county
  else if position == "Women Representative" then
    candidate.candPosition == "Women Representative" &&
      candidate.county == voter.county
  else if position == "MP" then
    candidate.candPosition == "MP" &&
      candidate.constituency == some voter.constituency
  else if position == "MCA" then
    candidate.candPosition == "MCA" &&
      candidate.constituency == some voter.constituency &&
      candidate.ward == some voter.ward
  else
    false

/-- The four per-position eligible-candidate lists returned by the
eligibility check.  The source `.select('fullName politicalParty photo')`
only projects display fields; membership is unaffected, so we keep the
full documents. -/
structure EligibleSets where
  governor : List Candidate
  womenRep : List Candidate
  mp : List Candidate
  mca : List Candidate
deriving Repr, DecidableEq

/-- `getEligibleCandidates(voter)` (`src/models/Candidate.js` lines
267–300): Governor and Women Representative are filtered on the literal
county `'Kirinyaga'`, MP on the voter's constituency, MCA on the voter's
constituency and ward; all filters require `isActive: true`. -/
def getEligibleCandidates (st : Store) (voter : Voter) : EligibleSets :=
  { governor := st.candidates.filter (fun c =>
      c.candPosition == "Governor" && c.county == "Kirinyaga" && c.isActive)
    womenRep := st.candidates.filter (fun c =>
      c.candPosition == "Women Representative" && c.county == "Kirinyaga" &&
        c.isActive)
    mp := st.candidates.filter (fun c =>
      c.candPosition == "MP" && c.constituency == some voter.constituency &&
        c.isActive)
    mca := st.candidates.filter (fun c =>
      c.candPosition == "MCA" && c.constituency == some voter.constituency &&
        c.ward == some voter.ward && c.isActive) }

/-- Select the list of `EligibleSets` for a position string, for stating
membership properties uniformly. -/
def EligibleSets.forPosition (e : EligibleSets) (position : String) :
    List Candidate :=
  if position == "Governor" then e.governor
  else if position == "Women Representative" then e.womenRep
  else if position == "MP" then e.mp
  else if position == "MCA" then e.mca
  else []

/-- The rejection responses `checkEligibility` can produce. -/
inductive EligReject where
  | portalClosed
  | invalidVotingNumber
  | alreadyVoted
deriving Repr, DecidableEq

/-- The success payload of `checkEligibility`: voter display fields, the
per-position eligible candidates, and the configured deadline. -/
structure EligSuccess where
  voterFullName : String
  voterConstituency : String
  voterWard : String
  eligible : EligibleSets
  votingDeadline : Option SettingValue
deriving Repr, DecidableEq

/-- Outcome of `checkEligibility`. -/
inductive EligOutcome where
  | rejected (r : EligReject)
  | success (payload : EligSuccess)
deriving Repr, DecidableEq

/-- `checkEligibility` (`src/models/Candidate.js` lines 80–128): portal
gate, then active-voter lookup, then `hasVoted`, then the eligible sets
and deadline.  The handler only performs `findOne`/`find` reads, so the
store is returned unchanged on every path. -/
def checkEligibility (st : Store) (votingNumber : String) :
    Store × EligOutcome :=
  match findSetting st "voting_portal_open" with
  | none => (st, .rejected .portalClosed)
  | some portalStatus =>
    if !portalStatus.value.truthy then
      (st, .rejected .portalClosed)
    else
      match findActiveVoter st votingNumber with
      | none => (st, .rejected .invalidVotingNumber)
      | some voter =>
        if voter.hasVoted then
          (st, .rejected .alreadyVoted)
        else
          (st, .success
            { voterFullName := voter.fullName
              voterConstituency := voter.constituency
              voterWard := voter.ward
              eligible := getEligibleCandidates st voter
              votingDeadline := getVotingDeadline st })

/-- One `(position, candidateId)` choice from the submission body. -/
structure Choice where
  chPosition : String
  candidateId : Nat
deriving Repr, DecidableEq

/-- The submission request: body `{ votingNumber, votes }` plus the
transport-level `req.ip` and `req.get('User-Agent')`. -/
structure SubmitRequest where
  votingNumber : String
  votes : List Choice
  ipAddress : Option String
  userAgent : Option String
deriving Repr, DecidableEq

/-- The explicit 4xx rejections of `submitVote` (each a
`res.status(400/404).json` before any vote is processed). -/
inductive SubmitReject where
  | noVotes
  | portalClosed
  | invalidVotingNumber
  | alreadyVoted
  | duplicatePositions
  | missingPosition (position : String)
deriving Repr, DecidableEq

/-- An error thrown inside one per-choice body of `submitVote`'s
`votes.map(async …)`: invalid/inactive candidate, area-ineligible
candidate, or a storage duplicate-key error from the unique
`(votingNumber, position)` index on vote insert. -/
inductive ChoiceError where
  | invalidCandidate (position : String)
  | ineligibleCandidate (candidateName : String) (position : String)
  | duplicateVoteKey (position : String)
deriving Repr, DecidableEq

/-- Outcome of `submitVote`: success; an explicit validation rejection;
or an error thrown during vote processing, which the code forwards to
`next(error)` (the generic error handler), not to a voting-specific
response. -/
inductive SubmitOutcome where
  | success (positions : List String)
  | rejected (r : SubmitReject)
  | serverError (e : ChoiceError)
deriving Repr, DecidableEq

/-- The canonical required ballot: `requiredPositions` in `submitVote`. -/
def requiredPositions : List String :=
  ["Governor", "Women Representative", "MP", "MCA"]

/-- Insert a vote record subject to the unique
`(votingNumber, position)` index declared on the Vote schema
(`voteSchema.index({ votingNumber: 1, position: 1 }, { unique: true })`):
`Vote.create` throws a duplicate-key error when a record with the same
key already exists, and appends the document otherwise. -/
def voteCreate (st : Store) (vr : VoteRec) : Store × Bool :=
  if st.votes.any (fun w =>
      w.votingNumber == vr.votingNumber && w.votePosition == vr.votePosition)
  then (st, false)
  else ({ st with votes := st.votes ++ [vr] }, true)

/-- `Candidate.findByIdAndUpdate(id, { $inc: { voteCount: 1 } })`. -/
def incVoteCount (st : Store) (cid : Nat) : Store :=
  { st with candidates := st.candidates.map (fun c =>
      if c.id == cid then { c with voteCount := c.voteCount + 1 } else c) }

/-- The Vote document `submitVote` builds for one choice. -/
def mkVoteRec (req : SubmitRequest) (voter : Voter) (c : Choice) :
    VoteRec :=
  { votingNumber := req.votingNumber
    votePosition := c.chPosition
    candidateId := c.candidateId
    county := voter.county
    constituency := voter.constituency
    ward := voter.ward
    ipAddress := req.ipAddress
    userAgent := req.userAgent }

/-- One body of `votes.map(async (vote) => …)` in `submitVote`
(`src/models/Candidate.js` lines 196–226): look the candidate up, check
activity and area eligibility, create the Vote record (`Vote.create`
throws a duplicate-key error, per the unique `(votingNumber, position)`
index, when a record with that key already exists), increment the
candidate's counter.  Returns the store after this choice's effects and
the error this body throws, if any. -/
def processChoice (req : SubmitRequest) (voter : Voter) (st : Store)
    (c : Choice) : Store × Option ChoiceError :=
  match findCandidateById st c.candidateId with
  | none => (st, some (.invalidCandidate c.chPosition))
  | some candidate =>
    if !candidate.isActive then
      (st, some (.invalidCandidate c.chPosition))
    else if !isCandidateEligible candidate voter c.chPosition then
      (st, some (.ineligibleCandidate candidate.fullName c.chPosition))
    else if st.votes.any (fun w =>
        w.votingNumber == req.votingNumber &&
          w.votePosition == c.chPosition) then
      (st, some (.duplicateVoteKey c.chPosition))
    else
      (incVoteCount
        { st with votes := st.votes ++ [mkVoteRec req voter c] }
        c.candidateId, none)

/-- Run every per-choice body, left to right, accumulating the store and
the errors thrown.  `Promise.all` starts all bodies and does not cancel
the rest when one rejects, so every choice is processed regardless of
other choices' failures; the sequential order is one admissible
event-loop interleaving of the independent awaits. -/
def processAllChoices (req : SubmitRequest) (voter : Voter) (st : Store) :
    Store × List ChoiceError :=
  req.votes.foldl (fun acc c =>
      let (st', e) := processChoice req voter acc.1 c
      (st', acc.2 ++ e.toList))
    (st, [])

/-- `voter.hasVoted = true; await voter.save()`: update the (unique, per
the Voter schema's unique index on `votingNumber`) voter document. -/
def markVoted (st : Store) (vn : String) : Store :=
  { st with voters := st.voters.map (fun v =>
      if v.votingNumber == vn then { v with hasVoted := true } else v) }

/-- `submitVote` (`src/models/Candidate.js` lines 133–264), with the
source's check order: empty-votes, portal gate, active-voter lookup,
`hasVoted`, duplicate positions (`[...new Set(votedPositions)]` keeps
first occurrences, so only the length comparison matters), missing
required position (first missing in `requiredPositions` order), then the
per-choice bodies under `Promise.all`.  If any body threw, the first
error (in choice order, matching the sequentialised interleaving) is
forwarded to `next(error)` and `hasVoted` is not set; otherwise the
voter is marked voted and the success response lists the positions.
There is no transaction: effects of completed choice bodies persist even
when the overall submission fails. -/
def submitVote (st : Store) (req : SubmitRequest) : Store × SubmitOutcome :=
  if req.votes.isEmpty then
    (st, .rejected .noVotes)
  else if !portalOpen st then
    (st, .rejected .portalClosed)
  else
    match findActiveVoter st req.votingNumber with
    | none => (st, .rejected .invalidVotingNumber)
    | some voter =>
      if voter.hasVoted then
        (st, .rejected .alreadyVoted)
      else
        let votedPositions := req.votes.map (fun v => v.chPosition)
        if (dedupFirst votedPositions).length ≠ votedPositions.length then
          (st, .rejected .duplicatePositions)
        else
          match requiredPositions.find?
              (fun p => !(votedPositions.contains p)) with
          | some p => (st, .rejected (.missingPosition p))
          | none =>
            let (st1, errs) := processAllChoices req voter st
            match errs with
            | e :: _ => (st1, .serverError e)
            | [] =>
              (markVoted st1 req.votingNumber,
               .success (req.votes.map (fun v => v.chPosition)))

/-! ## Results aggregator (`src/controllers/resultController.js`) -/

/-- Two-decimal rounding as `Number.prototype.toFixed(2)` produces for
the non-negative values arising here (nearest, ties rounded up), as a
function on rationals. -/
def round2 (q : ℚ) : ℚ :=
  (round (q * 100) : ℚ) / 100

/-- The `$match` filter of `getResultsByPosition`: `position` from the
route, `constituency`/`ward` added only when the query supplies them. -/
def voteMatches (position : String) (constituency ward : Option String)
    (v : VoteRec) : Bool :=
  v.votePosition == position &&
  (match constituency with
    | none => true
    | some c => v.constituency == c) &&
  (match ward with
    | none => true
    | some w => v.ward == w)

/-- The `$group: { _id: '$candidateId', votes: { $sum: 1 } }` stage: one
`(candidateId, count)` pair per distinct candidate id among the matched
votes. -/
def groupCounts (votes : List VoteRec) : List (Nat × Nat) :=
  (dedupFirst (votes.map (fun v => v.candidateId))).map
    (fun cid => (cid, (votes.map (fun v => v.candidateId)).count cid))

/-- Insert one `(candidateId, votes)` pair into a list already sorted by
descending vote count, keeping it sorted. -/
def insertByVotes (r : Nat × Nat) : List (Nat × Nat) → List (Nat × Nat)
  | [] => [r]
  | x :: xs => if x.2 ≥ r.2 then x :: insertByVotes r xs else r :: x :: xs

/-- The `$sort: { votes: -1 }` stage: sort the grouped counts by
descending vote count (insertion sort; the relative order of tied
candidates is unspecified in the source and irrelevant to the claims). -/
def sortByVotesDesc (l : List (Nat × Nat)) : List (Nat × Nat) :=
  l.foldr insertByVotes []

/-- One row of a tally response: candidate id, vote count, and
percentage of the filtered total.  The source additionally joins display
metadata (name, party, photo) from the Candidate collection, which does
not affect counts, order or percentages and is omitted here. -/
structure ResultRow where
  candidateId : Nat
  votes : Nat
  percentage : ℚ
deriving Repr, DecidableEq

/-- The aggregation pipeline of `getResultsByPosition` after its
`$match` stage: group the matched votes by candidate, sort descending,
total the counts (`results.reduce((sum, c) => sum + c.votes, 0)`), and
attach each candidate's percentage
`totalVotes > 0 ? ((votes / totalVotes) * 100).toFixed(2) : 0`. -/
def tallyRows (filtered : List VoteRec) : List ResultRow :=
  let sorted := sortByVotesDesc (groupCounts filtered)
  let totalVotes : Nat := (sorted.map (fun g => g.2)).sum
  sorted.map (fun g =>
    { candidateId := g.1
      votes := g.2
      percentage :=
        if totalVotes > 0 then round2 ((g.2 : ℚ) / (totalVotes : ℚ) * 100)
        else 0 })

/-- `getResultsByPosition` (`src/controllers/resultController.js` lines
127–164): `$match` on the position and the optional constituency/ward
filters, then the aggregation pipeline above. -/
def getResultsByPosition (st : Store) (position : String)
    (constituency ward : Option String) : List ResultRow :=
  tallyRows (st.votes.filter (voteMatches position constituency ward))

/-- The turnout summary of `getLiveResults`
(`src/controllers/resultController.js` lines 89–92 and the response
`summary` object): `totalVoters` counts `isActive: true` documents,
`votedCount` counts `hasVoted: true` documents (with no activity
filter), and `turnoutRate = totalVoters > 0 ? ((votedCount /
totalVoters) * 100).toFixed(2) : 0`. -/
structure LiveSummary where
  totalVoters : Nat
  votedCount : Nat
  pendingCount : Int
  turnoutRate : ℚ
deriving Repr, DecidableEq

/-- The voter-turnout part of `getLiveResults`. -/
def getLiveSummary (st : Store) : LiveSummary :=
  let totalVoters := st.voters.countP (fun v => v.isActive)
  let votedCount := st.voters.countP (fun v => v.hasVoted)
  { totalVoters := totalVoters
    votedCount := votedCount
    pendingCount := (totalVoters : Int) - (votedCount : Int)
    turnoutRate :=
      if totalVoters > 0 then
        round2 ((votedCount : ℚ) / (totalVoters : ℚ) * 100)
      else 0 }

/-! ## Candidate registry administration (admin candidate controller) -/

/-- The Candidate schema's `position` enum. -/
def candidatePositionEnum : List String :=
  ["Governor", "Women Representative", "MP", "MCA"]

/-- The Candidate schema's `constituency` enum (besides `null`). -/
def constituencyEnum : List String :=
  ["Kirinyaga Central", "Kirinyaga East", "Mwea", "Gichugu", "Ndia"]

/-- JavaScript truthiness of an optional request string (`!constituency`
is true for a missing field and for the empty string). -/
def truthyStr : Option String → Bool
  | none => false
  | some s => s ≠ ""

/-- The five-field key of the Candidate collection's unique partial
index `{ position, politicalParty, county, constituency, ward }`
(`src/models/Candidate.js` lines 58–67). -/
def candTuple (c : Candidate) :
    String × String × String × Option String × Option String :=
  (c.candPosition, c.politicalParty, c.county, c.constituency, c.ward)

/-- The Candidate unique index's duplicate test for writing document
`c`: the index is partial over `isActive: true`, so a write is refused
exactly when `c` is active and some other active document carries the
same five-field key. -/
def activeTupleClash (cands : List Candidate) (c : Candidate) : Bool :=
  c.isActive && cands.any (fun d =>
    d.isActive && d.id != c.id && candTuple d == candTuple c)

/-- Fresh `_id` for an inserted candidate document. -/
def freshId (cands : List Candidate) : Nat :=
  (cands.map (fun c => c.id)).foldr max 0 + 1

/-- Schema validation run by `Candidate.create`: `position` must be in
its enum, `constituency` must be `null` or in its enum and is required
for MP/MCA, `ward` is required for MCA. -/
def candidateSchemaValid (c : Candidate) : Bool :=
  candidatePositionEnum.contains c.candPosition &&
  (match c.constituency with
    | none => !(c.candPosition == "MP" || c.candPosition == "MCA")
    | some s => constituencyEnum.contains s) &&
  (match c.ward with
    | none => !(c.candPosition == "MCA")
    | some s => s ≠ "")

/-- Body of `POST /candidates`. -/
structure AddCandidateRequest where
  fullName : String
  addPosition : String
  politicalParty : String
  constituency : Option String
  ward : Option String
  photo : Option String
deriving Repr, DecidableEq

/-- The Candidate document `addCandidate` passes to `Candidate.create`:
`county` pinned to `'Kirinyaga'`, a `null` constituency for county-wide
seats, a `null` ward for non-MCA seats, a fresh document id, and the
uploaded photo path if any. -/
def mkNewCandidate (req : AddCandidateRequest)
    (cands : List Candidate) : Candidate :=
  { id := freshId cands
    fullName := req.fullName
    candPosition := req.addPosition
    politicalParty := req.politicalParty
    county := "Kirinyaga"
    constituency :=
      if req.addPosition == "Governor" ||
          req.addPosition == "Women Representative" then none
      else req.constituency
    ward := if req.addPosition == "MCA" then req.ward else none
    photo := (req.photo.map (fun f => "/uploads/candidates/" ++ f)).getD ""
    voteCount := 0
    isActive := true }

/-- Outcomes of `addCandidate`. -/
inductive AddOutcome where
  | created (c : Candidate)
  | rejectedMissingArea
  | rejectedDuplicate
  | creationFailed
deriving Repr, DecidableEq

/-- `addCandidate` (admin candidate controller): require a constituency
for MP/MCA and a ward for MCA; reject when an active candidate with the
same party, position and area already exists (the duplicate filter adds
`constituency` only for MP/MCA and `ward` only for MCA); otherwise
create the document with `county: 'Kirinyaga'`, a `null` constituency
for county-wide seats and a `null` ward for non-MCA seats.
`Candidate.create` itself enforces the schema validators and the unique
partial index. -/
def addCandidate (st : Store) (req : AddCandidateRequest) :
    Store × AddOutcome :=
  if (req.addPosition == "MP" || req.addPosition == "MCA") &&
      !truthyStr req.constituency then
    (st, .rejectedMissingArea)
  else if req.addPosition == "MCA" && !truthyStr req.ward then
    (st, .rejectedMissingArea)
  else
    let dupMatch : Candidate → Bool := fun d =>
      d.candPosition == req.addPosition &&
      d.politicalParty == req.politicalParty &&
      d.county == "Kirinyaga" &&
      d.isActive &&
      (!(req.addPosition == "MP" || req.addPosition == "MCA") ||
        d.constituency == req.constituency) &&
      (!(req.addPosition == "MCA") || d.ward == req.ward)
    if st.candidates.any dupMatch then
      (st, .rejectedDuplicate)
    else
      let newCand := mkNewCandidate req st.candidates
      if !candidateSchemaValid newCand then
        (st, .creationFailed)
      else if activeTupleClash st.candidates newCand then
        (st, .creationFailed)
      else
        ({ st with candidates := st.candidates ++ [newCand] },
         .created newCand)

/-- Body of `PUT /candidates/:id`: every schema field is optional. -/
structure UpdateCandidateRequest where
  fullName : Option String
  updPosition : Option String
  politicalParty : Option String
  county : Option String
  constituency : Option String
  ward : Option String
  isActive : Option Bool
  photo : Option String
deriving Repr, DecidableEq

/-- The JavaScript fallback `provided || current` for a string field: a
missing or empty provided value falls back to the current one. -/
def jsOr (provided : Option String) (current : String) : String :=
  match provided with
  | none => current
  | some s => if s == "" then current else s

/-- The fallback `provided || current` when the current value is itself
nullable (`candidate.constituency`, `candidate.ward`). -/
def jsOrOpt (provided : Option String) (current : Option String) :
    Option String :=
  match provided with
  | none => current
  | some s => if s == "" then current else some s

/-- Outcomes of `updateCandidate`. -/
inductive UpdateOutcome where
  | updated (c : Candidate)
  | notFound
  | rejectedDuplicate
  | updateFailed
deriving Repr, DecidableEq

/-- Apply the body fields present in the request to the stored document,
as `findByIdAndUpdate(id, req.body)` does. -/
def applyUpdate (c : Candidate) (req : UpdateCandidateRequest) :
    Candidate :=
  { c with
    fullName := req.fullName.getD c.fullName
    candPosition := req.updPosition.getD c.candPosition
    politicalParty := req.politicalParty.getD c.politicalParty
    county := req.county.getD c.county
    constituency :=
      match req.constituency with
      | none => c.constituency
      | some s => some s
    ward :=
      match req.ward with
      | none => c.ward
      | some s => some s
    isActive := req.isActive.getD c.isActive
    photo := req.photo.getD c.photo }

/-- The update validators `runValidators: true` applies to the paths the
body touches: the `position` and `constituency` enums. -/
def updateFieldsValid (req : UpdateCandidateRequest) : Bool :=
  (match req.updPosition with
    | none => true
    | some p => candidatePositionEnum.contains p) &&
  (match req.constituency with
    | none => true
    | some s => constituencyEnum.contains s)

/-- `updateCandidate` (admin candidate controller): look the document
up; reject when another active candidate matches the target party,
position and area (each target taken as `body value || current value`,
with `constituency` constrained only for a target position of MP/MCA and
`ward` only for MCA); then apply the body via `findByIdAndUpdate` with
`runValidators`, which is additionally refused by the unique partial
index when the resulting active document duplicates another active
document's five-field key. -/
def updateCandidate (st : Store) (cid : Nat)
    (req : UpdateCandidateRequest) : Store × UpdateOutcome :=
  match findCandidateById st cid with
  | none => (st, .notFound)
  | some candidate =>
    let targetPosition := jsOr req.updPosition candidate.candPosition
    let targetParty := jsOr req.politicalParty candidate.politicalParty
    let targetConstituency := jsOrOpt req.constituency candidate.constituency
    let targetWard := jsOrOpt req.ward candidate.ward
    let dupMatch : Candidate → Bool := fun d =>
      d.id != cid &&
      d.candPosition == targetPosition &&
      d.politicalParty == targetParty &&
      d.county == "Kirinyaga" &&
      d.isActive &&
      (!(targetPosition == "MP" || targetPosition == "MCA") ||
        d.constituency == targetConstituency) &&
      (!(targetPosition == "MCA") || d.ward == targetWard)
    if st.candidates.any dupMatch then
      (st, .rejectedDuplicate)
    else
      let applied := applyUpdate candidate req
      if !updateFieldsValid req then
        (st, .updateFailed)
      else if activeTupleClash st.candidates applied then
        (st, .updateFailed)
      else
        ({ st with candidates := st.candidates.map (fun d =>
            if d.id == cid then applied else d) },
         .updated applied)

/-- Outcomes of `deleteCandidate`. -/
inductive DeleteOutcome where
  | deactivated
  | deleted
  | notFound
deriving Repr, DecidableEq

/-- `deleteCandidate` (admin candidate controller): soft-delete
(`isActive = false`) a candidate holding votes, hard-delete one with
none. -/
def deleteCandidate (st : Store) (cid : Nat) : Store × DeleteOutcome :=
  match findCandidateById st cid with
  | none => (st, .notFound)
  | some candidate =>
    if candidate.voteCount > 0 then
      ({ st with candidates := st.candidates.map (fun d =>
          if d.id == cid then { d with isActive := false } else d) },
       .deactivated)
    else
      ({ st with candidates := st.candidates.filter (fun d => d.id != cid) },
       .deleted)

/-! ## Reachable stores

The operations modelled above are the only writers of the Vote and
Candidate collections in the repository: votes are created only inside
`submitVote`, and candidate documents are written only by
`addCandidate`, `updateCandidate`, `deleteCandidate` and the
`voteCount` increments of `submitVote`.  Voter registration and the
settings handlers never touch those two collections, so they are
admitted as arbitrary replacements of the `voters`/`settings` lists. -/

/-- Stores reachable from an empty Ballot Store / Candidate Registry by
the repository's operations. -/
inductive Reachable : Store → Prop where
  | init (voters : List Voter) (settings : List Setting) :
      Reachable { voters := voters, candidates := [], votes := [],
                  settings := settings }
  | submit (st : Store) (req : SubmitRequest) :
      Reachable st → Reachable (submitVote st req).1
  | elig (st : Store) (vn : String) :
      Reachable st → Reachable (checkEligibility st vn).1
  | add (st : Store) (req : AddCandidateRequest) :
      Reachable st → Reachable (addCandidate st req).1
  | update (st : Store) (cid : Nat) (req : UpdateCandidateRequest) :
      Reachable st → Reachable (updateCandidate st cid req).1
  | remove (st : Store) (cid : Nat) :
      Reachable st → Reachable (deleteCandidate st cid).1
  | voterRegistry (st : Store) (voters : List Voter) :
      Reachable st → Reachable { st with voters := voters }
  | settingsAdmin (st : Store) (settings : List Setting) :
      Reachable st → Reachable { st with settings := settings }

/-- The Ballot Store invariant of the `(votingNumber, position)` unique
index: no two vote records share both fields. -/
def voteKeysUnique (votes : List VoteRec) : Prop :=
  votes.Pairwise (fun a b =>
    ¬(a.votingNumber = b.votingNumber ∧ a.votePosition = b.votePosition))

/-- The Candidate Registry invariant: document ids are distinct, and no
two active documents share the five-field key of the unique partial
index. -/
def candidatesOK (cands : List Candidate) : Prop :=
  (cands.map (fun c => c.id)).Nodup ∧
  cands.Pairwise (fun a b =>
    ¬(a.isActive = true ∧ b.isActive = true ∧ candTuple a = candTuple b))

/-! ## Two concurrent submissions for one credential

The service is stateless and handlers run concurrently against the
shared store; every `await`ed database call is one atomic event.  A
submission attempt is therefore a sequence of micro-steps: the
synchronous empty-votes check plus the portal read; the voter read
followed by the synchronous structural checks; one branch per choice
(candidate lookup, vote insert, counter increment — the bodies started
by `votes.map(async …)`); and the `Promise.all` join that either marks
the voter voted or forwards the first branch error.  A failed branch
does not roll anything back and does not cancel the other branches.
An execution is a fold of such micro-steps over a schedule
interleaving two attempts. -/

/-- Progress of one per-choice body. -/
inductive BranchState where
  | toFind
  | toCreate
  | toInc
  | done
  | failed
deriving Repr, DecidableEq

/-- A branch that has settled (its body's promise resolved or
rejected). -/
def BranchState.settled : BranchState → Bool
  | .done => true
  | .failed => true
  | _ => false

/-- Progress of an attempt's main handler. -/
inductive MainPhase where
  | toPortal
  | toVoter
  | processing
  | committed
  | rejectedEarly
  | failedProcessing
deriving Repr, DecidableEq

/-- One in-flight `submitVote` attempt: its request, the voter document
it captured at its `Voter.findOne`, its main-phase progress, and its
per-choice branches. -/
structure Attempt where
  req : SubmitRequest
  voterData : Option Voter
  phase : MainPhase
  branches : List BranchState
deriving Repr, DecidableEq

/-- A fresh attempt for a request. -/
def Attempt.start (req : SubmitRequest) : Attempt :=
  { req := req, voterData := none, phase := .toPortal, branches := [] }

/-- The synchronous validation performed right after the voter read
resolves: `hasVoted`, duplicate positions, missing required positions
(`submitVote` lines 165–193). -/
def postVoterChecksPass (req : SubmitRequest) (voter : Voter) : Bool :=
  let votedPositions := req.votes.map (fun v => v.chPosition)
  !voter.hasVoted &&
  (dedupFirst votedPositions).length == votedPositions.length &&
  (requiredPositions.find? (fun p => !(votedPositions.contains p))).isNone

/-- The main-phase micro-step of an attempt (step index `0`): the
empty-votes check plus portal read; the voter read plus synchronous
validation; or, once every branch has settled, the `Promise.all` join —
`voter.hasVoted = true; voter.save()` on all-success, a forwarded error
otherwise.  Disabled phases leave the configuration unchanged. -/
def stepMain (st : Store) (a : Attempt) : Store × Attempt :=
  match a.phase with
  | .toPortal =>
    if a.req.votes.isEmpty then (st, { a with phase := .rejectedEarly })
    else if !portalOpen st then (st, { a with phase := .rejectedEarly })
    else (st, { a with phase := .toVoter })
  | .toVoter =>
    match findActiveVoter st a.req.votingNumber with
    | none => (st, { a with phase := .rejectedEarly })
    | some voter =>
      if postVoterChecksPass a.req voter then
        (st, { a with voterData := some voter, phase := .processing,
                      branches := a.req.votes.map (fun _ => .toFind) })
      else (st, { a with phase := .rejectedEarly })
  | .processing =>
    if a.branches.all (fun b => b.settled) then
      if a.branches.all (fun b => b == .done) then
        (markVoted st a.req.votingNumber, { a with phase := .committed })
      else (st, { a with phase := .failedProcessing })
    else (st, a)
  | _ => (st, a)

/-- The micro-step of branch `i` of an attempt: candidate lookup with
the activity and area-eligibility checks; `Vote.create` against the
unique `(votingNumber, position)` index; or the `voteCount` increment.
Only enabled while the attempt is `processing`. -/
def stepBranch (st : Store) (a : Attempt) (i : Nat) : Store × Attempt :=
  if a.phase != .processing then (st, a)
  else
    match a.req.votes.get? i, a.branches.get? i, a.voterData with
    | some choice, some bst, some voter =>
      match bst with
      | .toFind =>
        (match findCandidateById st choice.candidateId with
        | none => (st, { a with branches := a.branches.set i .failed })
        | some candidate =>
          if !candidate.isActive then
            (st, { a with branches := a.branches.set i .failed })
          else if !isCandidateEligible candidate voter choice.chPosition then
            (st, { a with branches := a.branches.set i .failed })
          else
            (st, { a with branches := a.branches.set i .toCreate }))
      | .toCreate =>
        let vr : VoteRec :=
          { votingNumber := a.req.votingNumber
            votePosition := choice.chPosition
            candidateId := choice.candidateId
            county := voter.county
            constituency := voter.constituency
            ward := voter.ward
            ipAddress := a.req.ipAddress
            userAgent := a.req.userAgent }
        let (st', ok) := voteCreate st vr
        if ok then (st', { a with branches := a.branches.set i .toInc })
        else (st', { a with branches := a.branches.set i .failed })
      | .toInc =>
        (incVoteCount st choice.candidateId,
         { a with branches := a.branches.set i .done })
      | _ => (st, a)
    | _, _, _ => (st, a)

/-- A configuration: the shared store and the two attempts. -/
structure Config where
  store : Store
  attA : Attempt
  attB : Attempt
deriving Repr, DecidableEq

/-- One scheduled event: which attempt runs (`true` for A) and which of
its micro-steps (`0` for the main phase, `i + 1` for branch `i`). -/
def microStep (cfg : Config) (who : Bool) (j : Nat) : Config :=
  if who then
    match j with
    | 0 =>
      let (st', a') := stepMain cfg.store cfg.attA
      { cfg with store := st', attA := a' }
    | i + 1 =>
      let (st', a') := stepBranch cfg.store cfg.attA i
      { cfg with store := st', attA := a' }
  else
    match j with
    | 0 =>
      let (st', b') := stepMain cfg.store cfg.attB
      { cfg with store := st', attB := b' }
    | i + 1 =>
      let (st', b') := stepBranch cfg.store cfg.attB i
      { cfg with store := st', attB := b' }

/-- Run a schedule of micro-steps. -/
def exec (cfg : Config) (sched : List (Bool × Nat)) : Config :=
  sched.foldl (fun c s => microStep c s.1 s.2) cfg

/-! ## Concrete fixtures

A small election for Kirinyaga/Mwea/Mwea used by witnesses and
counterexamples: one registered voter, one candidate per position plus a
second Governor candidate, and the portal-gate settings. -/

/-- A registered, not-yet-voted voter from constituency Mwea, ward
Mwea. -/
def sampleVoter : Voter :=
  { votingNumber := "VN1", fullName := "Jane Voter", county := "Kirinyaga"
    constituency := "Mwea", ward := "Mwea", hasVoted := false
    isActive := true }

/-- Governor candidate of party P1. -/
def candGov : Candidate :=
  { id := 1, fullName := "Gov One", candPosition := "Governor"
    politicalParty := "P1", county := "Kirinyaga", constituency := none
    ward := none, photo := "", voteCount := 0, isActive := true }

/-- Women Representative candidate of party P1. -/
def candWR : Candidate :=
  { id := 2, fullName := "Rep One", candPosition := "Women Representative"
    politicalParty := "P1", county := "Kirinyaga", constituency := none
    ward := none, photo := "", voteCount := 0, isActive := true }

/-- MP candidate of party P1 in Mwea. -/
def candMP : Candidate :=
  { id := 3, fullName := "MP One", candPosition := "MP"
    politicalParty := "P1", county := "Kirinyaga"
    constituency := some "Mwea", ward := none, photo := "", voteCount := 0
    isActive := true }

/-- MCA candidate of party P1 in Mwea/Mwea. -/
def candMCA : Candidate :=
  { id := 4, fullName := "MCA One", candPosition := "MCA"
    politicalParty := "P1", county := "Kirinyaga"
    constituency := some "Mwea", ward := some "Mwea", photo := ""
    voteCount := 0, isActive := true }

/-- A second Governor candidate, party P2. -/
def candGov2 : Candidate :=
  { id := 5, fullName := "Gov Two", candPosition := "Governor"
    politicalParty := "P2", county := "Kirinyaga", constituency := none
    ward := none, photo := "", voteCount := 0, isActive := true }

/-- Store with the portal open, the sample voter and five candidates. -/
def openStore : Store :=
  { voters := [sampleVoter]
    candidates := [candGov, candWR, candMP, candMCA, candGov2]
    votes := []
    settings := [{ key := "voting_portal_open", value := .bool true },
                 { key := "voting_deadline", value := .str "2027-08-09" }] }

/-- The same store with the portal closed. -/
def closedStore : Store :=
  { openStore with
    settings := [{ key := "voting_portal_open", value := .bool false }] }

/-- The same store after the sample voter has voted. -/
def votedStore : Store :=
  { openStore with voters := [{ sampleVoter with hasVoted := true }] }

/-- A complete, valid ballot for the sample voter. -/
def okReq : SubmitRequest :=
  { votingNumber := "VN1"
    votes := [{ chPosition := "Governor", candidateId := 1 },
              { chPosition := "Women Representative", candidateId := 2 },
              { chPosition := "MP", candidateId := 3 },
              { chPosition := "MCA", candidateId := 4 }]
    ipAddress := some "203.0.113.7", userAgent := some "Mozilla/5.0" }

/-- The same ballot with a nonexistent candidate id for Women
Representative. -/
def badReq : SubmitRequest :=
  { okReq with
    votes := [{ chPosition := "Governor", candidateId := 1 },
              { chPosition := "Women Representative", candidateId := 99 },
              { chPosition := "MP", candidateId := 3 },
              { chPosition := "MCA", candidateId := 4 }] }

/-- A ballot with a duplicated position. -/
def dupReq : SubmitRequest :=
  { okReq with
    votes := [{ chPosition := "Governor", candidateId := 1 },
              { chPosition := "Governor", candidateId := 5 }] }

/-- A submission with no votes at all. -/
def emptyReq : SubmitRequest := { okReq with votes := [] }

/-- A submission missing the MCA choice. -/
def missingReq : SubmitRequest :=
  { okReq with
    votes := [{ chPosition := "Governor", candidateId := 1 },
              { chPosition := "Women Representative", candidateId := 2 },
              { chPosition := "MP", candidateId := 3 }] }

/-- A submission under an unregistered credential. -/
def unknownReq : SubmitRequest := { okReq with votingNumber := "VNX" }

/-- Three Governor votes from three credentials: one for candidate 1 and
two for candidate 5. -/
def tallyStore : Store :=
  { openStore with
    votes := [{ votingNumber := "VN1", votePosition := "Governor"
                candidateId := 1, county := "Kirinyaga"
                constituency := "Mwea", ward := "Mwea"
                ipAddress := none, userAgent := none },
              { votingNumber := "VN2", votePosition := "Governor"
                candidateId := 5, county := "Kirinyaga"
                constituency := "Mwea", ward := "Mwea"
                ipAddress := none, userAgent := none },
              { votingNumber := "VN3", votePosition := "Governor"
                candidateId := 5, county := "Kirinyaga"
                constituency := "Gichugu", ward := "Baragwi"
                ipAddress := none, userAgent := none }] }

/-- Attempt A's request in the double-submission race (same credential
and choices as `okReq`, distinguishable by its ip address). -/
def raceReqA : SubmitRequest := { okReq with ipAddress := some "ipA" }

/-- Attempt B's request in the double-submission race. -/
def raceReqB : SubmitRequest := { okReq with ipAddress := some "ipB" }

/-- Both attempts poised against the open store. -/
def raceConfig : Config :=
  { store := openStore, attA := .start raceReqA, attB := .start raceReqB }

/-- A schedule in which both attempts pass validation before either
writes, A inserts its Governor vote, B inserts its Women Representative
vote, and each then collides with the other's record on the remaining
positions: every branch of both attempts runs to settlement, then both
joins observe a failure. -/
def raceSchedule : List (Bool × Nat) :=
  [(true, 0), (true, 0), (false, 0), (false, 0),
   (true, 1), (true, 1), (true, 1),
   (false, 2), (false, 2), (false, 2),
   (true, 2), (true, 2),
   (false, 1), (false, 1),
   (true, 3), (true, 3), (true, 3), (true, 4), (true, 4), (true, 4),
   (false, 3), (false, 3), (false, 4), (false, 4),
   (true, 0), (false, 0)]

/-! ## Supporting lemmas -/

theorem mem_dedupFirst [BEq α] [LawfulBEq α] (l : List α) (a : α) :
    a ∈ dedupFirst l ↔ a ∈ l := by
  induction l with
  | nil => simp [dedupFirst]
  | cons x xs ih =>
    simp only [dedupFirst, List.mem_cons, List.mem_filter, ih]
    constructor
    · rintro (rfl | ⟨h, _⟩)
      · exact Or.inl rfl
      · exact Or.inr h
    · rintro (rfl | h)
      · exact Or.inl rfl
      · by_cases hx : a = x
        · exact Or.inl hx
        · exact Or.inr ⟨h, by simp [hx]⟩

theorem nodup_dedupFirst [BEq α] [LawfulBEq α] (l : List α) :
    (dedupFirst l).Nodup := by
  induction l with
  | nil => simp [dedupFirst]
  | cons x xs ih =>
    simp only [dedupFirst, List.nodup_cons]
    refine ⟨?_, ih.filter _⟩
    intro hmem
    have := List.of_mem_filter hmem
    simp at this

theorem length_dedupFirst_le [BEq α] (l : List α) :
    (dedupFirst l).length ≤ l.length := by
  induction l with
  | nil => simp [dedupFirst]
  | cons x xs ih =>
    simp only [dedupFirst, List.length_cons]
    exact Nat.succ_le_succ (le_trans (List.length_filter_le _ _) ih)

theorem dedupFirst_length_eq_iff [BEq α] [LawfulBEq α] (l : List α) :
    (dedupFirst l).length = l.length ↔ l.Nodup := by
  induction l with
  | nil => simp [dedupFirst]
  | cons x xs ih =>
    simp only [dedupFirst, List.length_cons, Nat.succ.injEq,
      List.nodup_cons]
    constructor
    · intro h
      have h1 : ((dedupFirst xs).filter (fun y => y != x)).length ≤
          (dedupFirst xs).length := List.length_filter_le _ _
      have h2 := length_dedupFirst_le xs
      have hdl : (dedupFirst xs).length = xs.length := by omega
      have hfl : ((dedupFirst xs).filter (fun y => y != x)).length =
          (dedupFirst xs).length := by omega
      have hall : ∀ a ∈ dedupFirst xs, (fun y => y != x) a = true :=
        List.filter_length_eq_length.mp hfl
      have hnx : x ∉ xs := by
        intro hx
        have hx' : x ∈ dedupFirst xs := (mem_dedupFirst xs x).mpr hx
        have := hall x hx'
        simp at this
      exact ⟨hnx, ih.mp hdl⟩
    · rintro ⟨hnx, hnd⟩
      have hfeq : (dedupFirst xs).filter (fun y => y != x) =
          dedupFirst xs := by
        apply List.filter_eq_self.mpr
        intro y hy
        have hyxs : y ∈ xs := (mem_dedupFirst xs y).mp hy
        simp only [bne_iff_ne, ne_eq, decide_eq_true_eq]
        intro h
        exact hnx (h ▸ hyxs)
      rw [hfeq]
      exact ih.mpr hnd

theorem sum_map_filter_split (l : List α) (p : α → Bool) (f : α → Nat) :
    ((l.filter p).map f).sum + ((l.filter (fun a => !p a)).map f).sum =
      (l.map f).sum := by
  induction l with
  | nil => simp
  | cons x xs ih =>
    by_cases hp : p x = true
    · simp only [List.filter_cons, hp, if_pos, Bool.not_true,
        Bool.false_eq_true, if_false, List.map_cons, List.sum_cons]
      omega
    · have hp' : p x = false := by simpa using hp
      simp only [List.filter_cons, hp', Bool.false_eq_true, if_false,
        Bool.not_false, if_true, List.map_cons, List.sum_cons]
      omega

theorem filter_beq_of_nodup [BEq α] [LawfulBEq α] (l : List α)
    (hl : l.Nodup) (x : α) :
    l.filter (fun y => y == x) = if x ∈ l then [x] else [] := by
  induction l with
  | nil => simp
  | cons a as ih =>
    rw [List.nodup_cons] at hl
    obtain ⟨hna, hnd⟩ := hl
    by_cases hax : a = x
    · subst hax
      have hnil : as.filter (fun y => y == a) = [] := by
        rw [List.filter_eq_nil_iff]
        intro y hy
        simp only [beq_iff_eq, ne_eq, decide_eq_true_eq]
        intro h
        exact hna (h ▸ hy)
      simp [List.filter_cons, hnil]
    · have hba : (a == x) = false := by simp [hax]
      simp only [List.filter_cons, hba, Bool.false_eq_true, if_false]
      rw [ih hnd]
      have hxa : (x ∈ a :: as) ↔ (x ∈ as) := by
        constructor
        · intro h
          rcases List.mem_cons.mp h with rfl | h2
          · exact absurd rfl hax
          · exact h2
        · exact fun h => List.mem_cons.mpr (Or.inr h)
      by_cases hmem : x ∈ as
      · rw [if_pos hmem, if_pos (hxa.mpr hmem)]
      · rw [if_neg hmem, if_neg (fun h => hmem (hxa.mp h))]

theorem sum_count_dedupFirst [BEq α] [LawfulBEq α] (l : List α) :
    ((dedupFirst l).map (fun x => l.count x)).sum = l.length := by
  induction l with
  | nil => simp [dedupFirst]
  | cons x xs ih =>
    simp only [dedupFirst, List.map_cons, List.sum_cons,
      List.count_cons_self]
    have hmapeq : ((dedupFirst xs).filter (fun y => y != x)).map
        (fun y => (x :: xs).count y) =
        ((dedupFirst xs).filter (fun y => y != x)).map
        (fun y => xs.count y) := by
      apply List.map_congr_left
      intro y hy
      have hyx : y ≠ x := by
        have := List.of_mem_filter hy
        simpa using this
      exact List.count_cons_of_ne hyx xs
    rw [hmapeq]
    have hsplit := sum_map_filter_split (dedupFirst xs)
      (fun y => y != x) (fun y => xs.count y)
    have hnn : (dedupFirst xs).filter (fun a => !(a != x)) =
        (dedupFirst xs).filter (fun y => y == x) := by
      apply List.filter_congr
      intro a _
      simp [bne]
    rw [hnn, filter_beq_of_nodup _ (nodup_dedupFirst xs) x] at hsplit
    by_cases hx : x ∈ dedupFirst xs
    · have hx' : x ∈ xs := (mem_dedupFirst xs x).mp hx
      rw [if_pos hx] at hsplit
      rw [ih] at hsplit
      simp only [List.map_cons, List.map_nil, List.sum_cons,
        List.sum_nil] at hsplit
      simp only [List.length_cons]
      omega
    · have hx' : x ∉ xs := fun h => hx ((mem_dedupFirst xs x).mpr h)
      rw [if_neg hx] at hsplit
      rw [ih] at hsplit
      simp only [List.map_nil, List.sum_nil] at hsplit
      have hc0 : xs.count x = 0 := List.count_eq_zero.mpr hx'
      simp only [List.length_cons]
      omega


theorem perm_insertByVotes (r : Nat × Nat) (l : List (Nat × Nat)) :
    List.Perm (insertByVotes r l) (r :: l) := by
  induction l with
  | nil => simp [insertByVotes]
  | cons x xs ih =>
    by_cases hc : x.2 ≥ r.2
    · simp only [insertByVotes, if_pos hc]
      exact List.Perm.trans (List.Perm.cons x ih) (List.Perm.swap _ _ _)
    · simp [insertByVotes, hc]

theorem sorted_insertByVotes (r : Nat × Nat) (l : List (Nat × Nat))
    (h : l.Pairwise (fun a b => b.2 ≤ a.2)) :
    (insertByVotes r l).Pairwise (fun a b => b.2 ≤ a.2) := by
  induction l with
  | nil => simp [insertByVotes]
  | cons x xs ih =>
    rw [List.pairwise_cons] at h
    obtain ⟨hx, hxs⟩ := h
    by_cases hc : x.2 ≥ r.2
    · simp only [insertByVotes, if_pos hc]
      rw [List.pairwise_cons]
      refine ⟨?_, ih hxs⟩
      intro b hb
      have hb' : b ∈ r :: xs := (perm_insertByVotes r xs).mem_iff.mp hb
      rcases List.mem_cons.mp hb' with rfl | hbxs
      · exact hc
      · exact hx b hbxs
    · simp only [insertByVotes, if_neg hc]
      rw [List.pairwise_cons]
      constructor
      · intro b hb
        rcases List.mem_cons.mp hb with rfl | hbxs
        · omega
        · have := hx b hbxs
          omega
      · exact List.pairwise_cons.mpr ⟨hx, hxs⟩

theorem perm_sortByVotesDesc (l : List (Nat × Nat)) :
    List.Perm (sortByVotesDesc l) l := by
  induction l with
  | nil => exact List.Perm.refl _
  | cons x xs ih =>
    exact List.Perm.trans (perm_insertByVotes x _) (List.Perm.cons x ih)

theorem sorted_sortByVotesDesc (l : List (Nat × Nat)) :
    (sortByVotesDesc l).Pairwise (fun a b => b.2 ≤ a.2) := by
  induction l with
  | nil => simp [sortByVotesDesc]
  | cons x xs ih => exact sorted_insertByVotes x _ ih

theorem checkEligibility_fst (st : Store) (vn : String) :
    (checkEligibility st vn).1 = st := by
  unfold checkEligibility
  cases findSetting st "voting_portal_open" with
  | none => rfl
  | some p =>
    by_cases hp : p.value.truthy <;> simp only [hp]
    · cases findActiveVoter st vn with
      | none => simp
      | some voter => by_cases hv : voter.hasVoted <;> simp [hv]
    · simp

theorem abs_round2_sub (q : ℚ) : |round2 q - q| ≤ 1 / 200 := by
  have heq : round2 q - q = ((round (q * 100) : ℚ) - q * 100) / 100 := by
    unfold round2
    ring
  rw [heq, abs_div]
  have h100 : |(100 : ℚ)| = 100 := by norm_num
  rw [h100]
  have h := abs_sub_round (q * 100)
  rw [abs_sub_comm] at h
  linarith

/-! ## Claim theorems -/

/-- C5: eligibility resolution and submission validation agree: for
every voter (whose county is the schema's single enum value), a
candidate appears in the eligibility check's per-position list exactly
when it is a stored active candidate accepted by the
submission-validation predicate `isCandidateEligible` for that position
and voter — Governor and Women Representative matching on the voter's
county, MP on the constituency, MCA on the constituency and ward. -/
theorem eligibility_listing_iff (st : Store) (voter : Voter)
    (hc : voter.county = "Kirinyaga") (position : String)
    (cand : Candidate) :
    cand ∈ (getEligibleCandidates st voter).forPosition position ↔
      (cand ∈ st.candidates ∧ cand.isActive = true ∧
        isCandidateEligible cand voter position = true) := by
  unfold getEligibleCandidates EligibleSets.forPosition isCandidateEligible
  by_cases h1 : position = "Governor"
  · simp only [h1, beq_self_eq_true, if_pos, if_true, List.mem_filter]
    simp [hc, Bool.and_assoc]
    tauto
  · by_cases h2 : position = "Women Representative"
    · simp only [h2]
      simp [List.mem_filter, hc,
        show ¬("Women Representative" = "Governor") by decide]
      tauto
    · by_cases h3 : position = "MP"
      · simp only [h3]
        simp [List.mem_filter]
        tauto
      · by_cases h4 : position = "MCA"
        · simp only [h4]
          simp [List.mem_filter, Bool.and_assoc]
          tauto
        · simp [h1, h2, h3, h4]

/-- Witness for C5 at a concrete instance: the Governor candidate is
listed for the sample voter, and is a stored active candidate the
submission predicate accepts. -/
theorem eligibility_listing_iff_witness :
    candGov ∈ (getEligibleCandidates openStore sampleVoter).forPosition
      "Governor" ∧
    isCandidateEligible candGov sampleVoter "Governor" = true :=
  ⟨(eligibility_listing_iff openStore sampleVoter (by decide) "Governor"
      candGov).mpr ⟨by decide, by decide, by decide⟩,
   by decide⟩

/-- C8: the live-results turnout summary counts active voters as the
denominator, voters with `hasVoted` as the numerator, and reports
`votedCount / totalActiveVoters × 100` (two-decimal display rounding),
zero when there are no active voters. -/
theorem turnout_rate_spec (st : Store) :
    (getLiveSummary st).totalVoters =
      (st.voters.filter (fun v => v.isActive)).length ∧
    (getLiveSummary st).votedCount =
      (st.voters.filter (fun v => v.hasVoted)).length ∧
    (getLiveSummary st).turnoutRate =
      (if (st.voters.filter (fun v => v.isActive)).length = 0 then 0
       else round2 (100 *
         ((st.voters.filter (fun v => v.hasVoted)).length : ℚ) /
         ((st.voters.filter (fun v => v.isActive)).length : ℚ))) := by
  unfold getLiveSummary
  refine ⟨?_, ?_, ?_⟩
  · simp [List.countP_eq_length_filter]
  · simp [List.countP_eq_length_filter]
  · simp only [List.countP_eq_length_filter]
    by_cases h : (st.voters.filter (fun v => v.isActive)).length = 0
    · simp [h]
    · have hpos : 0 < (st.voters.filter (fun v => v.isActive)).length :=
        Nat.pos_of_ne_zero h
      simp only [h, if_neg, hpos, if_pos]
      congr 1
      ring

/-- C4: `checkEligibility` mutates nothing (the store passes through
unchanged, so repeating the check returns identical results), rejects
`PortalClosed` when the portal setting is absent or falsy, then
`InvalidVotingNumber` when no active voter holds the credential, then
`AlreadyVoted`, and otherwise returns the voter's eligible-candidate
sets with the configured deadline. -/
theorem eligibility_check_spec (st : Store) (vn : String) :
    (checkEligibility st vn).1 = st ∧
    checkEligibility (checkEligibility st vn).1 vn =
      checkEligibility st vn ∧
    (portalOpen st = false →
      (checkEligibility st vn).2 = .rejected .portalClosed) ∧
    (portalOpen st = true → findActiveVoter st vn = none →
      (checkEligibility st vn).2 = .rejected .invalidVotingNumber) ∧
    (∀ voter, portalOpen st = true → findActiveVoter st vn = some voter →
      voter.hasVoted = true →
      (checkEligibility st vn).2 = .rejected .alreadyVoted) ∧
    (∀ voter, portalOpen st = true → findActiveVoter st vn = some voter →
      voter.hasVoted = false →
      (checkEligibility st vn).2 = .success
        { voterFullName := voter.fullName
          voterConstituency := voter.constituency
          voterWard := voter.ward
          eligible := getEligibleCandidates st voter
          votingDeadline := getVotingDeadline st }) := by
  refine ⟨checkEligibility_fst st vn, by rw [checkEligibility_fst],
    ?_, ?_, ?_, ?_⟩
  all_goals unfold checkEligibility portalOpen
  all_goals cases hset : findSetting st "voting_portal_open" with
    | none => simp
    | some p =>
      by_cases hp : p.value.truthy <;>
        simp only [hp, Bool.not_true, Bool.not_false, if_neg, if_pos] <;>
        try simp
      all_goals cases hv : findActiveVoter st vn with
        | none => simp
        | some voter => by_cases hvv : voter.hasVoted <;> simp [hvv]

/-- Witness for C4: each branch at a concrete store — closed portal,
unknown credential, used credential, and a successful check. -/
theorem eligibility_check_spec_witness :
    (checkEligibility closedStore "VN1").2 = .rejected .portalClosed ∧
    (checkEligibility openStore "VNX").2 =
      .rejected .invalidVotingNumber ∧
    (checkEligibility votedStore "VN1").2 = .rejected .alreadyVoted ∧
    (checkEligibility openStore "VN1").2 = .success
      { voterFullName := sampleVoter.fullName
        voterConstituency := sampleVoter.constituency
        voterWard := sampleVoter.ward
        eligible := getEligibleCandidates openStore sampleVoter
        votingDeadline := getVotingDeadline openStore } :=
  ⟨(eligibility_check_spec closedStore "VN1").2.2.1 (by decide),
   (eligibility_check_spec openStore "VNX").2.2.2.1 (by decide) (by decide),
   (eligibility_check_spec votedStore "VN1").2.2.2.2.1
     { sampleVoter with hasVoted := true } (by decide) (by decide)
     (by decide),
   (eligibility_check_spec openStore "VN1").2.2.2.2.2 sampleVoter
     (by decide) (by decide) (by decide)⟩

/-- C6 counterexample: a submission whose choice set duplicates a
position, sent while the portal is closed, is rejected `PortalClosed` —
not `DuplicatePositions` — so the structural checks on the choice set do
not all precede the portal-open check as the claim's ordering states. -/
theorem submit_order_counterexample :
    (submitVote closedStore dupReq).2 = .rejected .portalClosed ∧
    (submitVote closedStore dupReq).2 ≠ .rejected .duplicatePositions := by
  decide

/-- C6 as amended: `submitVote`'s first failing check determines the
rejection in the source's order — empty choice set, then closed portal,
then unknown/inactive credential, then already-voted credential, then
duplicate positions, then the first missing required position, and only
then the per-choice candidate checks (whose failures surface as
forwarded errors rather than validation rejections). -/
theorem submit_validation_order (st : Store) (req : SubmitRequest) :
    (req.votes = [] → (submitVote st req).2 = .rejected .noVotes) ∧
    (req.votes ≠ [] → portalOpen st = false →
      (submitVote st req).2 = .rejected .portalClosed) ∧
    (req.votes ≠ [] → portalOpen st = true →
      findActiveVoter st req.votingNumber = none →
      (submitVote st req).2 = .rejected .invalidVotingNumber) ∧
    (∀ voter, req.votes ≠ [] → portalOpen st = true →
      findActiveVoter st req.votingNumber = some voter →
      voter.hasVoted = true →
      (submitVote st req).2 = .rejected .alreadyVoted) ∧
    (∀ voter, req.votes ≠ [] → portalOpen st = true →
      findActiveVoter st req.votingNumber = some voter →
      voter.hasVoted = false →
      ¬(req.votes.map (fun v => v.chPosition)).Nodup →
      (submitVote st req).2 = .rejected .duplicatePositions) ∧
    (∀ voter p, req.votes ≠ [] → portalOpen st = true →
      findActiveVoter st req.votingNumber = some voter →
      voter.hasVoted = false →
      (req.votes.map (fun v => v.chPosition)).Nodup →
      requiredPositions.find?
        (fun q => !((req.votes.map (fun v => v.chPosition)).contains q)) =
        some p →
      (submitVote st req).2 = .rejected (.missingPosition p)) ∧
    (∀ voter, req.votes ≠ [] → portalOpen st = true →
      findActiveVoter st req.votingNumber = some voter →
      voter.hasVoted = false →
      (req.votes.map (fun v => v.chPosition)).Nodup →
      requiredPositions.find?
        (fun q => !((req.votes.map (fun v => v.chPosition)).contains q)) =
        none →
      ((∃ e, (submitVote st req).2 = .serverError e) ∨
        (∃ ps, (submitVote st req).2 = .success ps))) := by
  refine ⟨?_, ?_, ?_, ?_, ?_, ?_, ?_⟩
  · intro he
    simp [submitVote, he]
  · intro hne hp
    have hie : req.votes.isEmpty = false := by
      simpa [List.isEmpty_iff] using hne
    simp [submitVote, hie, hp]
  · intro hne hp hv
    have hie : req.votes.isEmpty = false := by
      simpa [List.isEmpty_iff] using hne
    simp [submitVote, hie, hp, hv]
  · intro voter hne hp hv hvv
    have hie : req.votes.isEmpty = false := by
      simpa [List.isEmpty_iff] using hne
    simp [submitVote, hie, hp, hv, hvv]
  · intro voter hne hp hv hvv hdup
    have hie : req.votes.isEmpty = false := by
      simpa [List.isEmpty_iff] using hne
    have hlen : (dedupFirst (req.votes.map (fun v => v.chPosition))).length ≠
        req.votes.length := by
      intro h
      apply hdup
      apply (dedupFirst_length_eq_iff _).mp
      simpa using h
    simp [submitVote, hie, hp, hv, hvv, hlen]
  · intro voter p hne hp hv hvv hnd hfind
    have hie : req.votes.isEmpty = false := by
      simpa [List.isEmpty_iff] using hne
    have hlen : (dedupFirst (req.votes.map (fun v => v.chPosition))).length =
        req.votes.length := by
      rw [(dedupFirst_length_eq_iff _).mpr hnd]
      simp
    have hfind' : requiredPositions.find?
        (fun q => !decide (∃ a ∈ req.votes, a.chPosition = q)) = some p := by
      simpa using hfind
    simp [submitVote, hie, hp, hv, hvv, hlen, hfind']
  · intro voter hne hp hv hvv hnd hfind
    have hie : req.votes.isEmpty = false := by
      simpa [List.isEmpty_iff] using hne
    have hlen : (dedupFirst (req.votes.map (fun v => v.chPosition))).length =
        req.votes.length := by
      rw [(dedupFirst_length_eq_iff _).mpr hnd]
      simp
    have hfind' : requiredPositions.find?
        (fun q => !decide (∃ a ∈ req.votes, a.chPosition = q)) = none := by
      simpa using hfind
    cases herr : (processAllChoices req voter st).2 with
    | nil =>
      right
      refine ⟨req.votes.map (fun v => v.chPosition), ?_⟩
      simp [submitVote, hie, hp, hv, hvv, hlen, hfind', herr]
    | cons e rest =>
      left
      refine ⟨e, ?_⟩
      simp [submitVote, hie, hp, hv, hvv, hlen, hfind', herr]

/-- Witness for the amended C6: each rejection branch observed at a
concrete store and request. -/
theorem submit_validation_order_witness :
    (submitVote openStore emptyReq).2 = .rejected .noVotes ∧
    (submitVote closedStore okReq).2 = .rejected .portalClosed ∧
    (submitVote openStore unknownReq).2 = .rejected .invalidVotingNumber ∧
    (submitVote votedStore okReq).2 = .rejected .alreadyVoted ∧
    (submitVote openStore dupReq).2 = .rejected .duplicatePositions ∧
    (submitVote openStore missingReq).2 =
      .rejected (.missingPosition "MCA") ∧
    ((∃ e, (submitVote openStore okReq).2 = .serverError e) ∨
      (∃ ps, (submitVote openStore okReq).2 = .success ps)) :=
  ⟨(submit_validation_order openStore emptyReq).1 rfl,
   (submit_validation_order closedStore okReq).2.1 (by decide) (by decide),
   (submit_validation_order openStore unknownReq).2.2.1 (by decide)
     (by decide) (by decide),
   (submit_validation_order votedStore okReq).2.2.2.1
     { sampleVoter with hasVoted := true } (by decide) (by decide)
     (by decide) (by decide),
   (submit_validation_order openStore dupReq).2.2.2.2.1 sampleVoter
     (by decide) (by decide) (by decide) (by decide) (by decide),
   (submit_validation_order openStore missingReq).2.2.2.2.2.1 sampleVoter
     "MCA" (by decide) (by decide) (by decide) (by decide) (by decide)
     (by decide),
   (submit_validation_order openStore okReq).2.2.2.2.2.2 sampleVoter
     (by decide) (by decide) (by decide) (by decide) (by decide)
     (by decide)⟩

theorem processChoice_votes (req : SubmitRequest) (voter : Voter)
    (st : Store) (c : Choice) :
    ∀ v ∈ (processChoice req voter st c).1.votes,
      v ∈ st.votes ∨
        (v.votingNumber = req.votingNumber ∧ v.ipAddress = req.ipAddress ∧
          v.userAgent = req.userAgent) := by
  intro v hv
  unfold processChoice at hv
  split at hv
  · exact Or.inl hv
  · split at hv
    · exact Or.inl hv
    · split at hv
      · exact Or.inl hv
      · split at hv
        · exact Or.inl hv
        · simp only [incVoteCount] at hv
          rcases List.mem_append.mp hv with h | h
          · exact Or.inl h
          · rcases List.mem_singleton.mp h with rfl
            exact Or.inr ⟨rfl, rfl, rfl⟩

theorem processAllChoices_votes_aux (req : SubmitRequest) (voter : Voter)
    (cs : List Choice) :
    ∀ acc : Store × List ChoiceError,
      ∀ v ∈ (cs.foldl (fun acc c =>
          let (st', e) := processChoice req voter acc.1 c
          (st', acc.2 ++ e.toList)) acc).1.votes,
        v ∈ acc.1.votes ∨
          (v.votingNumber = req.votingNumber ∧ v.ipAddress = req.ipAddress ∧
            v.userAgent = req.userAgent) := by
  induction cs with
  | nil =>
    intro acc v hv
    exact Or.inl hv
  | cons c cs ih =>
    intro acc v hv
    rw [List.foldl_cons] at hv
    have hred : (let (st', e) := processChoice req voter acc.1 c
        ((st', acc.2 ++ e.toList) : Store × List ChoiceError)) =
        ((processChoice req voter acc.1 c).1,
          acc.2 ++ (processChoice req voter acc.1 c).2.toList) := by
      rcases hp : processChoice req voter acc.1 c with ⟨a, b⟩
      rfl
    rw [hred] at hv
    rcases ih _ v hv with h | h
    · exact processChoice_votes req voter acc.1 c v h
    · exact Or.inr h

theorem submitVote_fst_cases (st : Store) (req : SubmitRequest) :
    (submitVote st req).1 = st ∨
    ∃ voter, findActiveVoter st req.votingNumber = some voter ∧
      ((submitVote st req).1 = (processAllChoices req voter st).1 ∨
       (submitVote st req).1 =
         markVoted (processAllChoices req voter st).1 req.votingNumber) := by
  by_cases hie : req.votes.isEmpty
  · left
    simp [submitVote, hie]
  · have hie' : req.votes.isEmpty = false := by simpa using hie
    by_cases hp : portalOpen st
    · cases hv : findActiveVoter st req.votingNumber with
      | none =>
        left
        simp [submitVote, hie', hp, hv]
      | some voter =>
        by_cases hvv : voter.hasVoted
        · left
          simp [submitVote, hie', hp, hv, hvv]
        · by_cases hdup : (dedupFirst
              (req.votes.map (fun v => v.chPosition))).length =
              req.votes.length
          · cases hfind : requiredPositions.find?
                (fun p =>
                  !((req.votes.map (fun v => v.chPosition)).contains p)) with
            | some p =>
              have hfind' : requiredPositions.find?
                  (fun q => !decide (∃ a ∈ req.votes, a.chPosition = q)) =
                  some p := by simpa using hfind
              left
              simp [submitVote, hie', hp, hv, hvv, hdup, hfind']
            | none =>
              have hfind' : requiredPositions.find?
                  (fun q => !decide (∃ a ∈ req.votes, a.chPosition = q)) =
                  none := by simpa using hfind
              right
              refine ⟨voter, rfl, ?_⟩
              rcases hpac : processAllChoices req voter st with ⟨st1, errs⟩
              rcases errs with _ | ⟨e, rest⟩
              · right
                simp [submitVote, hie', hp, hv, hvv, hdup, hfind', hpac]
              · left
                simp [submitVote, hie', hp, hv, hvv, hdup, hfind', hpac]
          · left
            simp [submitVote, hie', hp, hv, hvv, hdup]
    · have hp' : portalOpen st = false := by simpa using hp
      left
      simp [submitVote, hie', hp']

theorem submitVote_fst_votes (st : Store) (req : SubmitRequest) :
    (submitVote st req).1.votes = st.votes ∨
    ∃ voter, findActiveVoter st req.votingNumber = some voter ∧
      (submitVote st req).1.votes =
        (processAllChoices req voter st).1.votes := by
  rcases submitVote_fst_cases st req with h | ⟨voter, hfv, h | h⟩
  · exact Or.inl (by rw [h])
  · exact Or.inr ⟨voter, hfv, by rw [h]⟩
  · exact Or.inr ⟨voter, hfv, by rw [h]; simp [markVoted]⟩

theorem addCandidate_votes (st : Store) (req : AddCandidateRequest) :
    (addCandidate st req).1.votes = st.votes := by
  unfold addCandidate
  try dsimp only
  repeat' split
  all_goals rfl

theorem updateCandidate_votes (st : Store) (cid : Nat)
    (req : UpdateCandidateRequest) :
    (updateCandidate st cid req).1.votes = st.votes := by
  unfold updateCandidate
  try dsimp only
  repeat' split
  all_goals rfl

theorem deleteCandidate_votes (st : Store) (cid : Nat) :
    (deleteCandidate st cid).1.votes = st.votes := by
  unfold deleteCandidate
  try dsimp only
  repeat' split
  all_goals rfl

/-- C10: every Vote record that a ballot submission adds to the Ballot
Store carries the submitting request's `ipAddress` and `userAgent`
alongside the voting number, so each stored ballot is linkable to the
network request that cast it. -/
theorem vote_records_identify_request (st : Store) (req : SubmitRequest)
    (v : VoteRec) (hv : v ∈ (submitVote st req).1.votes)
    (hnew : v ∉ st.votes) :
    v.votingNumber = req.votingNumber ∧ v.ipAddress = req.ipAddress ∧
      v.userAgent = req.userAgent := by
  rcases submitVote_fst_votes st req with h | ⟨voter, hfv, h⟩
  · rw [h] at hv
    exact absurd hv hnew
  · rw [h] at hv
    rcases processAllChoices_votes_aux req voter req.votes (st, []) v hv
      with h2 | h2
    · exact absurd h2 hnew
    · exact h2

/-- Witness for C10: the Governor record written by the accepted sample
submission carries the request's ip address and user agent. -/
theorem vote_records_identify_request_witness :
    mkVoteRec okReq sampleVoter ⟨"Governor", 1⟩ ∈
      (submitVote openStore okReq).1.votes ∧
    ((mkVoteRec okReq sampleVoter ⟨"Governor", 1⟩).votingNumber =
        okReq.votingNumber ∧
      (mkVoteRec okReq sampleVoter ⟨"Governor", 1⟩).ipAddress =
        okReq.ipAddress ∧
      (mkVoteRec okReq sampleVoter ⟨"Governor", 1⟩).userAgent =
        okReq.userAgent) :=
  ⟨by decide,
   vote_records_identify_request openStore okReq _ (by decide) (by decide)⟩

/-- C1 at its failing input: a ballot whose second choice names a
nonexistent candidate is rejected, yet the three valid choices'
Vote records and `voteCount` increments persist (no transaction and no
compensating cleanup), while `hasVoted` stays false — the submission is
not all-or-nothing. -/
theorem submit_partial_failure_persists :
    (submitVote openStore badReq).2 =
      .serverError (.invalidCandidate "Women Representative") ∧
    (submitVote openStore badReq).1.votes.length = 3 ∧
    (∀ v ∈ (submitVote openStore badReq).1.voters, v.hasVoted = false) ∧
    (∃ c ∈ (submitVote openStore badReq).1.candidates,
      c.id = 1 ∧ c.voteCount = 1) := by
  decide

theorem processChoice_keys (req : SubmitRequest) (voter : Voter)
    (st : Store) (c : Choice) (h : voteKeysUnique st.votes) :
    voteKeysUnique (processChoice req voter st c).1.votes := by
  unfold processChoice
  split
  · exact h
  · split
    · exact h
    · split
      · exact h
      · split
        · exact h
        · rename_i hguard
          simp only [incVoteCount]
          unfold voteKeysUnique at h ⊢
          rw [List.pairwise_append]
          refine ⟨h, by simp, ?_⟩
          intro a ha b hb
          rcases List.mem_singleton.mp hb with rfl
          rintro ⟨h1, h2⟩
          apply hguard
          rw [List.any_eq_true]
          refine ⟨a, ha, ?_⟩
          simp only [mkVoteRec] at h1 h2
          simp [h1, h2]

theorem processAllChoices_keys_aux (req : SubmitRequest) (voter : Voter)
    (cs : List Choice) :
    ∀ acc : Store × List ChoiceError, voteKeysUnique acc.1.votes →
      voteKeysUnique ((cs.foldl (fun acc c =>
          let (st', e) := processChoice req voter acc.1 c
          (st', acc.2 ++ e.toList)) acc).1.votes) := by
  induction cs with
  | nil =>
    intro acc h
    exact h
  | cons c cs ih =>
    intro acc h
    rw [List.foldl_cons]
    have hred : (let (st', e) := processChoice req voter acc.1 c
        ((st', acc.2 ++ e.toList) : Store × List ChoiceError)) =
        ((processChoice req voter acc.1 c).1,
          acc.2 ++ (processChoice req voter acc.1 c).2.toList) := by
      rcases hp : processChoice req voter acc.1 c with ⟨a, b⟩
      rfl
    rw [hred]
    exact ih _ (processChoice_keys req voter acc.1 c h)

theorem submitVote_keys (st : Store) (req : SubmitRequest)
    (h : voteKeysUnique st.votes) :
    voteKeysUnique (submitVote st req).1.votes := by
  rcases submitVote_fst_votes st req with he | ⟨voter, hfv, he⟩
  · rw [he]
    exact h
  · rw [he]
    exact processAllChoices_keys_aux req voter req.votes (st, []) h

/-- C2: in every reachable state of the Ballot Store, the pair
`(votingNumber, position)` is unique across all Vote records.  The
uniqueness is enforced at the storage layer: the embedded `Vote.create`
refuses a record whose key is already present, mirroring the schema's
unique index, and it is the only writer of the collection. -/
theorem ballot_key_invariant (st : Store) (h : Reachable st) :
    voteKeysUnique st.votes := by
  induction h with
  | init voters settings => exact List.Pairwise.nil
  | submit st req hr ih => exact submitVote_keys st req ih
  | elig st vn hr ih => rw [checkEligibility_fst]; exact ih
  | add st req hr ih => rw [addCandidate_votes]; exact ih
  | update st cid req hr ih => rw [updateCandidate_votes]; exact ih
  | remove st cid hr ih => rw [deleteCandidate_votes]; exact ih
  | voterRegistry st voters hr ih => exact ih
  | settingsAdmin st settings hr ih => exact ih

/-- The sample store is reachable: five `addCandidate` steps from an
initial registry holding the sample voter and the portal settings. -/
theorem reachable_openStore : Reachable openStore := by
  have h0 : Reachable (Store.mk [sampleVoter] [] [] openStore.settings) :=
    Reachable.init _ _
  have h1 := Reachable.add _
    ⟨"Gov One", "Governor", "P1", none, none, none⟩ h0
  have h2 := Reachable.add _
    ⟨"Rep One", "Women Representative", "P1", none, none, none⟩ h1
  have h3 := Reachable.add _
    ⟨"MP One", "MP", "P1", some "Mwea", none, none⟩ h2
  have h4 := Reachable.add _
    ⟨"MCA One", "MCA", "P1", some "Mwea", some "Mwea", none⟩ h3
  have h5 := Reachable.add _
    ⟨"Gov Two", "Governor", "P2", none, none, none⟩ h4
  have he : (addCandidate (addCandidate (addCandidate (addCandidate
      (addCandidate (Store.mk [sampleVoter] [] [] openStore.settings)
        ⟨"Gov One", "Governor", "P1", none, none, none⟩).1
        ⟨"Rep One", "Women Representative", "P1", none, none, none⟩).1
        ⟨"MP One", "MP", "P1", some "Mwea", none, none⟩).1
        ⟨"MCA One", "MCA", "P1", some "Mwea", some "Mwea", none⟩).1
        ⟨"Gov Two", "Governor", "P2", none, none, none⟩).1 = openStore := by
    decide
  rw [he] at h5
  exact h5

/-- Witness for C2: the sample store is reachable, and after the
accepted sample submission the Ballot Store's keys are unique. -/
theorem ballot_key_invariant_witness :
    voteKeysUnique (submitVote openStore okReq).1.votes :=
  ballot_key_invariant _ (Reachable.submit _ okReq reachable_openStore)

theorem sum_sorted_counts (l : List VoteRec) :
    ((sortByVotesDesc (groupCounts l)).map (fun g => g.2)).sum =
      l.length := by
  have hperm := (perm_sortByVotesDesc (groupCounts l)).map
    (fun (g : Nat × Nat) => g.2)
  rw [hperm.sum_eq]
  unfold groupCounts
  rw [List.map_map]
  have hco : ((fun (g : Nat × Nat) => g.2) ∘ fun cid =>
      (cid, (l.map (fun v => v.candidateId)).count cid)) =
      fun cid => (l.map (fun v => v.candidateId)).count cid := rfl
  rw [hco, sum_count_dedupFirst]
  exact List.length_map _ _

theorem mem_groupCounts (l : List VoteRec) (g : Nat × Nat) :
    g ∈ groupCounts l ↔
      g.1 ∈ dedupFirst (l.map (fun v => v.candidateId)) ∧
        g.2 = (l.map (fun v => v.candidateId)).count g.1 := by
  unfold groupCounts
  rw [List.mem_map]
  constructor
  · rintro ⟨c, hc, rfl⟩
    exact ⟨hc, rfl⟩
  · rintro ⟨hc, hg⟩
    exact ⟨g.1, hc, by rw [← hg]⟩

theorem groupCounts_pos (l : List VoteRec) (g : Nat × Nat)
    (hg : g ∈ groupCounts l) : 0 < g.2 := by
  rw [mem_groupCounts] at hg
  obtain ⟨hmem, hcount⟩ := hg
  rw [hcount]
  rw [List.count_pos_iff]
  exact (mem_dedupFirst _ _).mp hmem

theorem groupCounts_keys (l : List VoteRec) :
    (groupCounts l).map (fun g => g.1) =
      dedupFirst (l.map (fun v => v.candidateId)) := by
  unfold groupCounts
  rw [List.map_map]
  have hall : ∀ c ∈ dedupFirst (l.map (fun v => v.candidateId)),
      ((fun (g : Nat × Nat) => g.1) ∘ fun cid =>
        (cid, (l.map (fun v => v.candidateId)).count cid)) c = c :=
    fun c _ => rfl
  rw [List.map_congr_left hall, List.map_id']

theorem tallyRows_basic (l : List VoteRec) :
    (tallyRows l).Pairwise (fun a b => b.votes ≤ a.votes) ∧
    ((tallyRows l).map (fun r => r.candidateId)).Nodup ∧
    (∀ v ∈ l, ∃ r ∈ tallyRows l, r.candidateId = v.candidateId) ∧
    (∀ r ∈ tallyRows l, 0 < r.votes ∧
      r.votes = (l.map (fun v => v.candidateId)).count r.candidateId ∧
      r.percentage = (if l.length = 0 then (0 : ℚ)
        else round2 (100 * (r.votes : ℚ) / (l.length : ℚ)))) := by
  have hkeys : (tallyRows l).map (fun r => r.candidateId) =
      (sortByVotesDesc (groupCounts l)).map (fun g => g.1) := by
    unfold tallyRows
    rw [List.map_map]
    rfl
  refine ⟨?_, ?_, ?_, ?_⟩
  · exact List.Pairwise.map _ (fun a b h => h)
      (sorted_sortByVotesDesc (groupCounts l))
  · rw [hkeys]
    rw [((perm_sortByVotesDesc (groupCounts l)).map
      (fun (g : Nat × Nat) => g.1)).nodup_iff]
    rw [groupCounts_keys]
    exact nodup_dedupFirst _
  · intro v hv
    have h1 : v.candidateId ∈ l.map (fun v => v.candidateId) :=
      List.mem_map_of_mem _ hv
    have h2 : v.candidateId ∈
        dedupFirst (l.map (fun v => v.candidateId)) :=
      (mem_dedupFirst _ _).mpr h1
    have h3 : (v.candidateId,
        (l.map (fun v => v.candidateId)).count v.candidateId) ∈
        groupCounts l := by
      rw [mem_groupCounts]
      exact ⟨h2, rfl⟩
    have h4 := (perm_sortByVotesDesc (groupCounts l)).mem_iff.mpr h3
    exact ⟨_, List.mem_map_of_mem _ h4, rfl⟩
  · intro r hr
    unfold tallyRows at hr
    rw [List.mem_map] at hr
    obtain ⟨g, hg, rfl⟩ := hr
    have hgc := (perm_sortByVotesDesc (groupCounts l)).mem_iff.mp hg
    have hpos := groupCounts_pos l g hgc
    have hcount := (mem_groupCounts l g).mp hgc
    refine ⟨hpos, hcount.2, ?_⟩
    dsimp only
    rw [sum_sorted_counts]
    by_cases hl : l.length = 0
    · rw [if_neg (by omega), if_pos hl]
    · rw [if_pos (Nat.pos_of_ne_zero hl), if_neg hl]
      congr 1
      ring

theorem tallyRows_two (l : List VoteRec) (r1 r2 : ResultRow)
    (heq : tallyRows l = [r1, r2]) :
    r1.percentage = round2 (100 * (r1.votes : ℚ) /
      (((r1.votes + r2.votes : Nat)) : ℚ)) ∧
    |r1.percentage + r2.percentage - 100| ≤ 1 / 100 := by
  unfold tallyRows at heq
  rcases hs : sortByVotesDesc (groupCounts l) with _ | ⟨g1, t⟩
  · rw [hs] at heq
    simp at heq
  rcases t with _ | ⟨g2, t2⟩
  · rw [hs] at heq
    simp at heq
  rcases t2 with _ | ⟨g3, t3⟩
  swap
  · rw [hs] at heq
    simp at heq
  have hg1 : g1 ∈ groupCounts l :=
    (perm_sortByVotesDesc (groupCounts l)).mem_iff.mp (by rw [hs]; simp)
  have hg2 : g2 ∈ groupCounts l :=
    (perm_sortByVotesDesc (groupCounts l)).mem_iff.mp (by rw [hs]; simp)
  have hp1 := groupCounts_pos l g1 hg1
  have hp2 := groupCounts_pos l g2 hg2
  rw [hs] at heq
  simp only [List.map_cons, List.map_nil, List.sum_cons, List.sum_nil,
    List.cons.injEq, and_true] at heq
  obtain ⟨h1, h2⟩ := heq
  subst h1
  subst h2
  have hSpos : 0 < g1.2 + (g2.2 + 0) := by omega
  dsimp only
  rw [if_pos hSpos, if_pos hSpos]
  have hcast : ((g1.2 + (g2.2 + 0) : Nat) : ℚ) =
      (g1.2 : ℚ) + (g2.2 : ℚ) := by
    push_cast
    ring
  have hQpos : (0 : ℚ) < (g1.2 : ℚ) + (g2.2 : ℚ) := by
    have hq : (0 : ℚ) < ((g1.2 + (g2.2 + 0) : Nat) : ℚ) := by
      exact_mod_cast hSpos
    rw [hcast] at hq
    exact hq
  constructor
  · rw [show (g1.2 + g2.2 : Nat) = g1.2 + (g2.2 + 0) from by omega]
    congr 1
    rw [hcast]
    ring
  · set a : ℚ := (g1.2 : ℚ) / ((g1.2 + (g2.2 + 0) : Nat) : ℚ) * 100
      with ha
    set b : ℚ := (g2.2 : ℚ) / ((g1.2 + (g2.2 + 0) : Nat) : ℚ) * 100
      with hb
    have hab : a + b = 100 := by
      rw [ha, hb, hcast]
      field_simp
      ring
    have hsplit : round2 a + round2 b - 100 =
        (round2 a - a) + (round2 b - b) := by
      rw [← hab]
      ring
    rw [hsplit]
    calc |(round2 a - a) + (round2 b - b)| ≤
        |round2 a - a| + |round2 b - b| := abs_add _ _
      _ ≤ 1 / 200 + 1 / 200 :=
        add_le_add (abs_round2_sub a) (abs_round2_sub b)
      _ = 1 / 100 := by norm_num

/-- C7: a tally by position groups the Vote records matching the filter
by candidate id (one row per distinct candidate, counting its matching
votes), sorts the rows by descending vote count, and assigns each row
the percentage `100 × votes / total` of the filtered total rounded to
two decimals, with percentage 0 when the filtered total is 0; with
exactly two rows `percentage(top) = round2(100·N/(N+M))` and the two
percentages sum to 100 up to at most 1/100 of rounding error. -/
theorem tally_by_position_spec (st : Store) (position : String)
    (constituency ward : Option String) :
    (getResultsByPosition st position constituency ward).Pairwise
      (fun a b => b.votes ≤ a.votes) ∧
    ((getResultsByPosition st position constituency ward).map
      (fun r => r.candidateId)).Nodup ∧
    (∀ v ∈ st.votes.filter (voteMatches position constituency ward),
      ∃ r ∈ getResultsByPosition st position constituency ward,
        r.candidateId = v.candidateId) ∧
    (∀ r ∈ getResultsByPosition st position constituency ward,
      0 < r.votes ∧
      r.votes = ((st.votes.filter
        (voteMatches position constituency ward)).map
        (fun v => v.candidateId)).count r.candidateId ∧
      r.percentage = (if (st.votes.filter
          (voteMatches position constituency ward)).length = 0 then (0 : ℚ)
        else round2 (100 * (r.votes : ℚ) /
          ((st.votes.filter
            (voteMatches position constituency ward)).length : ℚ)))) ∧
    (∀ r1 r2,
      getResultsByPosition st position constituency ward = [r1, r2] →
      r1.percentage = round2 (100 * (r1.votes : ℚ) /
        (((r1.votes + r2.votes : Nat)) : ℚ)) ∧
      |r1.percentage + r2.percentage - 100| ≤ 1 / 100) := by
  unfold getResultsByPosition
  exact ⟨(tallyRows_basic _).1, (tallyRows_basic _).2.1,
    (tallyRows_basic _).2.2.1, (tallyRows_basic _).2.2.2,
    fun r1 r2 heq => tallyRows_two _ r1 r2 heq⟩

theorem tally_rows_eval :
    getResultsByPosition tallyStore "Governor" none none =
      [⟨5, 2, 6667/100⟩, ⟨1, 1, 3333/100⟩] := by
  unfold getResultsByPosition tallyStore openStore
  simp only [List.filter, voteMatches]
  norm_num [tallyRows, groupCounts, dedupFirst, sortByVotesDesc,
    insertByVotes, List.count, List.countP, List.countP.go, round2,
    round_eq, show ((5 : Nat) == 1) = false from rfl,
    show ((1 : Nat) == 5) = false from rfl, Bool.cond_true,
    Bool.cond_false]

/-- Witness for C7: with one Governor vote for candidate 1 and two for
candidate 5, the tally is candidate 5 first with 66.67% and candidate 1
with 33.33%, and the percentages sum to 100 within rounding. -/
theorem tally_by_position_spec_witness :
    getResultsByPosition tallyStore "Governor" none none =
      [⟨5, 2, 6667/100⟩, ⟨1, 1, 3333/100⟩] ∧
    ((⟨5, 2, 6667/100⟩ : ResultRow).percentage =
      round2 (100 * ((⟨5, 2, 6667/100⟩ : ResultRow).votes : ℚ) /
        ((((⟨5, 2, 6667/100⟩ : ResultRow).votes +
          (⟨1, 1, 3333/100⟩ : ResultRow).votes : Nat)) : ℚ)) ∧
     |(⟨5, 2, 6667/100⟩ : ResultRow).percentage +
       (⟨1, 1, 3333/100⟩ : ResultRow).percentage - 100| ≤ 1 / 100) :=
  ⟨tally_rows_eval,
   (tally_by_position_spec tallyStore "Governor" none none).2.2.2.2 _ _
     tally_rows_eval⟩

theorem le_foldr_max (l : List Nat) : ∀ x ∈ l, x ≤ l.foldr max 0 := by
  induction l with
  | nil => simp
  | cons a as ih =>
    intro x hx
    rcases List.mem_cons.mp hx with rfl | h
    · exact le_max_left _ _
    · exact le_trans (ih x h) (le_max_right _ _)

theorem freshId_not_mem (cands : List Candidate) :
    freshId cands ∉ cands.map (fun c => c.id) := by
  intro h
  have hle := le_foldr_max (cands.map (fun c => c.id)) _ h
  unfold freshId at hle
  omega

theorem candidatesOK_map (cands : List Candidate)
    (f : Candidate → Candidate)
    (hid : ∀ c, (f c).id = c.id)
    (hact : ∀ c, (f c).isActive = true → c.isActive = true)
    (htup : ∀ c, candTuple (f c) = candTuple c)
    (h : candidatesOK cands) : candidatesOK (cands.map f) := by
  obtain ⟨hnd, hpw⟩ := h
  constructor
  · have hm : (cands.map f).map (fun c => c.id) =
        cands.map (fun c => c.id) := by
      rw [List.map_map]
      exact List.map_congr_left (fun c _ => hid c)
    rw [hm]
    exact hnd
  · refine List.Pairwise.map f ?_ hpw
    intro a b hab
    rintro ⟨ha, hb, ht⟩
    exact hab ⟨hact a ha, hact b hb, by rw [htup a, htup b] at ht; exact ht⟩

theorem incVoteCount_ok (st : Store) (cid : Nat)
    (h : candidatesOK st.candidates) :
    candidatesOK (incVoteCount st cid).candidates := by
  unfold incVoteCount
  apply candidatesOK_map _ _ ?_ ?_ ?_ h
  · intro c
    by_cases hc : c.id == cid <;> simp [hc]
  · intro c
    by_cases hc : c.id == cid <;> simp [hc]
  · intro c
    by_cases hc : c.id == cid <;> simp [hc, candTuple]

theorem processChoice_candidatesOK (req : SubmitRequest) (voter : Voter)
    (st : Store) (c : Choice) (h : candidatesOK st.candidates) :
    candidatesOK (processChoice req voter st c).1.candidates := by
  unfold processChoice
  split
  · exact h
  · split
    · exact h
    · split
      · exact h
      · split
        · exact h
        · exact incVoteCount_ok _ c.candidateId h

theorem processAllChoices_candidatesOK_aux (req : SubmitRequest)
    (voter : Voter) (cs : List Choice) :
    ∀ acc : Store × List ChoiceError, candidatesOK acc.1.candidates →
      candidatesOK ((cs.foldl (fun acc c =>
          let (st', e) := processChoice req voter acc.1 c
          (st', acc.2 ++ e.toList)) acc).1.candidates) := by
  induction cs with
  | nil =>
    intro acc h
    exact h
  | cons c cs ih =>
    intro acc h
    rw [List.foldl_cons]
    have hred : (let (st', e) := processChoice req voter acc.1 c
        ((st', acc.2 ++ e.toList) : Store × List ChoiceError)) =
        ((processChoice req voter acc.1 c).1,
          acc.2 ++ (processChoice req voter acc.1 c).2.toList) := by
      rcases hp : processChoice req voter acc.1 c with ⟨a, b⟩
      rfl
    rw [hred]
    exact ih _ (processChoice_candidatesOK req voter acc.1 c h)

theorem submitVote_candidatesOK (st : Store) (req : SubmitRequest)
    (h : candidatesOK st.candidates) :
    candidatesOK (submitVote st req).1.candidates := by
  rcases submitVote_fst_cases st req with he | ⟨voter, hfv, he | he⟩
  · rw [he]
    exact h
  · rw [he]
    exact processAllChoices_candidatesOK_aux req voter req.votes (st, []) h
  · rw [he]
    have hm : (markVoted (processAllChoices req voter st).1
        req.votingNumber).candidates =
        (processAllChoices req voter st).1.candidates := by
      simp [markVoted]
    rw [hm]
    exact processAllChoices_candidatesOK_aux req voter req.votes (st, []) h

theorem update_map_ok (cid : Nat) (applied : Candidate)
    (hid : applied.id = cid) :
    ∀ cands : List Candidate,
      candidatesOK cands →
      activeTupleClash cands applied = false →
      candidatesOK (cands.map
        (fun d => if d.id == cid then applied else d)) := by
  intro cands
  induction cands with
  | nil =>
    intro _ _
    exact ⟨by simp, by simp⟩
  | cons d rest ih =>
    rintro ⟨hnd, hpw⟩ hclash
    rw [List.map_cons, List.nodup_cons] at hnd
    rw [List.pairwise_cons] at hpw
    obtain ⟨hdni, hndr⟩ := hnd
    obtain ⟨hdR, hpwr⟩ := hpw
    have hclash' : activeTupleClash rest applied = false := by
      unfold activeTupleClash at hclash ⊢
      rcases Bool.and_eq_false_iff.mp hclash with hA | hany
      · rw [hA]
        rfl
      · rw [List.any_cons] at hany
        rcases Bool.or_eq_false_iff.mp hany with ⟨_, hr⟩
        rw [hr]
        simp
    have hgd : ∀ x ∈ d :: rest, applied.isActive = true →
        ¬(x.isActive = true ∧ x.id ≠ cid ∧
          candTuple x = candTuple applied) := by
      intro x hx hA
      rintro ⟨hxa, hxi, hxt⟩
      unfold activeTupleClash at hclash
      rcases Bool.and_eq_false_iff.mp hclash with hA' | hany
      · rw [hA] at hA'
        exact absurd hA' (by simp)
      · have hfx := List.any_eq_false.mp hany x hx
        rw [hid] at hfx
        simp [hxa, hxi, hxt] at hfx
    constructor
    · simp only [List.map_cons, List.nodup_cons]
      constructor
      · intro hmem
        rw [List.map_map] at hmem
        have h1 : (if (d.id == cid) = true then applied else d).id =
            d.id := by
          by_cases hx : (d.id == cid) = true
          · rw [if_pos hx, hid]
            exact (beq_iff_eq.mp hx).symm
          · rw [if_neg hx]
        rw [h1] at hmem
        have h3 : ∀ x ∈ rest, ((fun c => c.id) ∘
            fun d => if (d.id == cid) = true then applied else d) x =
            x.id := by
          intro x _
          simp only [Function.comp]
          by_cases hx : (x.id == cid) = true
          · rw [if_pos hx, hid]
            exact (beq_iff_eq.mp hx).symm
          · rw [if_neg hx]
        rw [List.map_congr_left h3] at hmem
        exact hdni hmem
      · exact (ih ⟨hndr, hpwr⟩ hclash').1
    · simp only [List.map_cons, List.pairwise_cons]
      constructor
      · intro b' hb'
        rw [List.mem_map] at hb'
        obtain ⟨b, hb, rfl⟩ := hb'
        by_cases hd : (d.id == cid) = true
        · have hdid : d.id = cid := beq_iff_eq.mp hd
          have hbne : b.id ≠ cid := by
            intro hbc
            apply hdni
            rw [hdid, ← hbc]
            exact List.mem_map_of_mem (fun c => c.id) hb
          have hbne' : ¬((b.id == cid) = true) := by simpa using hbne
          rw [if_pos hd, if_neg hbne']
          rintro ⟨hA, hba, hbt⟩
          exact hgd b (List.mem_cons.mpr (Or.inr hb)) hA
            ⟨hba, hbne, hbt.symm⟩
        · rw [if_neg hd]
          by_cases hbc : (b.id == cid) = true
          · rw [if_pos hbc]
            rintro ⟨hda, hA, hdt⟩
            have hdne : d.id ≠ cid := by simpa using hd
            exact hgd d (List.mem_cons.mpr (Or.inl rfl)) hA
              ⟨hda, hdne, hdt⟩
          · rw [if_neg hbc]
            exact hdR b hb
      · exact (ih ⟨hndr, hpwr⟩ hclash').2

theorem addCandidate_ok (st : Store) (req : AddCandidateRequest)
    (h : candidatesOK st.candidates) :
    candidatesOK (addCandidate st req).1.candidates := by
  unfold addCandidate
  try dsimp only
  repeat' split
  all_goals try exact h
  rename_i hclash
  have hclash' : activeTupleClash st.candidates
      (mkNewCandidate req st.candidates) = false := by
    simpa using hclash
  obtain ⟨hnd, hpw⟩ := h
  have hanyf : st.candidates.any (fun d =>
      d.isActive && d.id != (mkNewCandidate req st.candidates).id &&
        candTuple d == candTuple (mkNewCandidate req st.candidates)) =
      false := by
    unfold activeTupleClash at hclash'
    rcases Bool.and_eq_false_iff.mp hclash' with hA | hany
    · exact absurd hA (by simp [mkNewCandidate])
    · exact hany
  constructor
  · rw [List.map_append, List.nodup_append]
    refine ⟨hnd, by simp, ?_⟩
    intro a ha hb
    simp only [List.map_cons, List.map_nil, List.mem_singleton] at hb
    subst hb
    exact freshId_not_mem st.candidates ha
  · rw [List.pairwise_append]
    refine ⟨hpw, by simp, ?_⟩
    intro a ha b hb
    rcases List.mem_singleton.mp hb with rfl
    rintro ⟨haa, hba, hat⟩
    have hne : a.id ≠ (mkNewCandidate req st.candidates).id := by
      intro he
      apply freshId_not_mem st.candidates
      rw [show (mkNewCandidate req st.candidates).id =
        freshId st.candidates from rfl] at he
      rw [← he]
      exact List.mem_map_of_mem (fun c => c.id) ha
    have := List.any_eq_false.mp hanyf a ha
    simp [haa, hne, hat] at this

theorem updateCandidate_ok (st : Store) (cid : Nat)
    (req : UpdateCandidateRequest) (h : candidatesOK st.candidates) :
    candidatesOK (updateCandidate st cid req).1.candidates := by
  unfold updateCandidate
  split
  · exact h
  · rename_i candidate hfind
    try dsimp only
    repeat' split
    all_goals try exact h
    rename_i hclash
    have hcid : candidate.id = cid := by
      unfold findCandidateById at hfind
      have := List.find?_some hfind
      simpa using this
    have hclash' : activeTupleClash st.candidates
        (applyUpdate candidate req) = false := by
      simpa using hclash
    have hid2 : (applyUpdate candidate req).id = cid := by
      rw [show (applyUpdate candidate req).id = candidate.id from rfl, hcid]
    exact update_map_ok cid (applyUpdate candidate req) hid2
      st.candidates h hclash'

theorem deleteCandidate_ok (st : Store) (cid : Nat)
    (h : candidatesOK st.candidates) :
    candidatesOK (deleteCandidate st cid).1.candidates := by
  unfold deleteCandidate
  split
  · exact h
  · split
    · apply candidatesOK_map _ _ ?_ ?_ ?_ h
      · intro c
        by_cases hc : c.id == cid <;> simp [hc]
      · intro c
        by_cases hc : c.id == cid <;> simp [hc]
      · intro c
        by_cases hc : c.id == cid <;> simp [hc, candTuple]
    · obtain ⟨hnd, hpw⟩ := h
      have hsub : (st.candidates.filter (fun d => d.id != cid)).Sublist
          st.candidates := List.filter_sublist _
      constructor
      · exact List.Nodup.sublist (hsub.map (fun c => c.id)) hnd
      · exact List.Pairwise.sublist hsub hpw

theorem addCandidate_created_no_dup (st : Store)
    (req : AddCandidateRequest) (c : Candidate)
    (hc : (addCandidate st req).2 = .created c) :
    ¬∃ d ∈ st.candidates, d.isActive = true ∧
      candTuple d = candTuple c := by
  unfold addCandidate at hc
  try dsimp only at hc
  repeat' split at hc
  all_goals simp at hc
  rename_i hclash
  subst hc
  rintro ⟨d, hd, hda, hdt⟩
  have hanyf : st.candidates.any (fun d =>
      d.isActive && d.id != (mkNewCandidate req st.candidates).id &&
        candTuple d == candTuple (mkNewCandidate req st.candidates)) =
      false := by
    have hclash' : activeTupleClash st.candidates
        (mkNewCandidate req st.candidates) = false := by
      simpa using hclash
    unfold activeTupleClash at hclash'
    rcases Bool.and_eq_false_iff.mp hclash' with hA | hany
    · exact absurd hA (by simp [mkNewCandidate])
    · exact hany
  have hne : d.id ≠ (mkNewCandidate req st.candidates).id := by
    intro he
    apply freshId_not_mem st.candidates
    rw [show (mkNewCandidate req st.candidates).id =
      freshId st.candidates from rfl] at he
    rw [← he]
    exact List.mem_map_of_mem (fun c => c.id) hd
  have := List.any_eq_false.mp hanyf d hd
  simp [hda, hne, hdt] at this

theorem updateCandidate_updated_no_dup (st : Store) (cid : Nat)
    (req : UpdateCandidateRequest) (c : Candidate)
    (hc : (updateCandidate st cid req).2 = .updated c)
    (hact : c.isActive = true) :
    ¬∃ d ∈ st.candidates, d.id ≠ c.id ∧ d.isActive = true ∧
      candTuple d = candTuple c := by
  unfold updateCandidate at hc
  split at hc
  · simp at hc
  · rename_i candidate hfind
    try dsimp only at hc
    repeat' split at hc
    all_goals simp at hc
    rename_i hclash
    subst hc
    rintro ⟨d, hd, hdi, hda, hdt⟩
    have hclash' : activeTupleClash st.candidates
        (applyUpdate candidate req) = false := by
      simpa using hclash
    unfold activeTupleClash at hclash'
    rcases Bool.and_eq_false_iff.mp hclash' with hA | hany
    · rw [hact] at hA
      exact absurd hA (by simp)
    · have := List.any_eq_false.mp hany d hd
      simp [hda, hdi, hdt] at this

/-- C9: in every reachable state, active candidates have pairwise
distinct `(position, politicalParty, county, constituency, ward)` keys
(and document ids are distinct); moreover candidate creation and update
never produce a document that duplicates an existing active candidate's
key — any such attempt is rejected by the duplicate pre-check or the
unique partial index, leaving the store unchanged. -/
theorem candidate_registry_invariant (st : Store) (h : Reachable st) :
    candidatesOK st.candidates ∧
    (∀ req c, (addCandidate st req).2 = .created c →
      ¬∃ d ∈ st.candidates, d.isActive = true ∧
        candTuple d = candTuple c) ∧
    (∀ cid req c, (updateCandidate st cid req).2 = .updated c →
      c.isActive = true →
      ¬∃ d ∈ st.candidates, d.id ≠ c.id ∧ d.isActive = true ∧
        candTuple d = candTuple c) := by
  refine ⟨?_, fun req c hc => addCandidate_created_no_dup st req c hc,
    fun cid req c hc ha =>
      updateCandidate_updated_no_dup st cid req c hc ha⟩
  induction h with
  | init voters settings => exact ⟨by simp, by simp⟩
  | submit st req hr ih => exact submitVote_candidatesOK st req ih
  | elig st vn hr ih => rw [checkEligibility_fst]; exact ih
  | add st req hr ih => exact addCandidate_ok st req ih
  | update st cid req hr ih => exact updateCandidate_ok st cid req ih
  | remove st cid hr ih => exact deleteCandidate_ok st cid ih
  | voterRegistry st voters hr ih => exact ih
  | settingsAdmin st settings hr ih => exact ih

/-- Witness for C9: the reachable sample store satisfies the invariant,
and a successfully created new-party Governor duplicates no existing
active candidate's key. -/
theorem candidate_registry_invariant_witness :
    candidatesOK openStore.candidates ∧
    ¬∃ d ∈ openStore.candidates, d.isActive = true ∧
      candTuple d = candTuple (mkNewCandidate
        ⟨"Gov Three", "Governor", "P3", none, none, none⟩
        openStore.candidates) :=
  ⟨(candidate_registry_invariant openStore reachable_openStore).1,
   (candidate_registry_invariant openStore reachable_openStore).2.1
     ⟨"Gov Three", "Governor", "P3", none, none, none⟩ _ (by decide)⟩

set_option maxRecDepth 10000 in
/-- C3 at its failing interleaving: two concurrent submissions for the
same credential both pass validation; A inserts its Governor vote, B its
Women Representative vote, and every remaining insert of either attempt
hits the unique-index conflict.  Both attempts fail (surfacing the raw
duplicate-key error, not an AlreadyVoted outcome), a Vote record from
the losing attempt B persists alongside three from A, and the voter's
`hasVoted` remains false. -/
theorem concurrent_double_submit_not_clean :
    (exec raceConfig raceSchedule).attA.phase = .failedProcessing ∧
    (exec raceConfig raceSchedule).attB.phase = .failedProcessing ∧
    ((exec raceConfig raceSchedule).store.votes.filter
      (fun v => v.ipAddress == some "ipB")).length = 1 ∧
    ((exec raceConfig raceSchedule).store.votes.filter
      (fun v => v.ipAddress == some "ipA")).length = 3 ∧
    (∀ v ∈ (exec raceConfig raceSchedule).store.voters,
      v.hasVoted = false) := by
  decide

end EVote
